import Mathlib

/-!
# WebUI application controller: preferences snapshot and partial update

A shallow embedding of `src/webui/api/appcontroller.cpp`:

* `preferencesAction` builds the full preferences snapshot;
* `setPreferencesAction` applies a sparse JSON patch, key by key, to the
  session, the preferences store, the proxy manager, the watched-folder
  registry (`ScanFoldersModel`), the translator list and the RSS settings.

Every external setter is an assignment to the slot its getter reads; the
collaborators this file only calls (path normalisation, the folder registry,
the translation loader, the password hasher, text/number conversions) are
parameters collected in `Env`.
-/

namespace AppController

/-! ## QVariant and its coercions -/

/-- A `QVariant` as produced by `QJsonDocument::toVariant` (JSON null is the
invalid variant, numbers are doubles, kept here as exact rationals) or stored
by the preferences (`int`, `string`). -/
inductive QVariant where
  | invalid
  | bool (b : Bool)
  | int (i : Int)
  | double (d : ℚ)
  | string (s : String)
  | list (l : List QVariant)
  | map (m : List (String × QVariant))

/-- Models `QVariantMap` (`QMap<QString, QVariant>`), as its entries in iteration order. -/
abbrev QVariantMap := List (String × QVariant)

/-- Models `QVariantHash` (`QHash<QString, QVariant>`), as its entries in iteration order. -/
abbrev QVariantHash := List (String × QVariant)

/-- Models `m.find(key)`: the value when `it != m.constEnd()`. -/
def QVariantMap.find (m : QVariantMap) (key : String) : Option QVariant :=
  m.lookup key

/-- Models `m.contains(key)`. -/
def QVariantMap.contains (m : QVariantMap) (key : String) : Bool :=
  (QVariantMap.find m key).isSome

/-- Models `m[key]` on a const map: the value, or a default-constructed (invalid) variant. -/
def QVariantMap.value (m : QVariantMap) (key : String) : QVariant :=
  (QVariantMap.find m key).getD QVariant.invalid

/-- Models `h.contains(key)` on a hash. -/
def QVariantHash.contains (h : QVariantHash) (key : String) : Bool :=
  h.any (fun e => e.1 == key)

/-- Models `h.insert(key, value)`: replaces the value of an existing key, else adds the entry. -/
def QVariantHash.insert : QVariantHash → String → QVariant → QVariantHash
  | [], key, v => [(key, v)]
  | e :: h, key, v => if e.1 == key then (key, v) :: h else e :: QVariantHash.insert h key v

/-- The keys of a hash, in iteration order. -/
def QVariantHash.keys (h : QVariantHash) : List String :=
  h.map Prod.fst

/-- Models `qRound64`: round half up, `floor (d + 0.5)`. -/
def qRound64 (d : ℚ) : Int :=
  ⌊d + 1 / 2⌋

/-- Conversion of a 64-bit value to C++ `int`: two's complement, 32 bits. -/
def toInt32 (i : Int) : Int :=
  (i + 2147483648) % 4294967296 - 2147483648

/-- Conversion of a 64-bit value to C++ `uint`: modulo 2^32. -/
def toUInt32 (i : Int) : Int :=
  i % 4294967296

/-- Text and number conversions of Qt that the coercions rely on. -/
structure Conv where
  /-- Models `QString::toLongLong`, `none` when the text is not a number. -/
  stringToLongLong : String → Option Int
  /-- Models `QString::toULongLong`. -/
  stringToULongLong : String → Option Int
  /-- Models `QString::toDouble`. -/
  stringToDouble : String → Option ℚ
  /-- Models `QString::number(double)`. -/
  doubleToString : ℚ → String

/-- Models `QVariant::toBool()`; a failed conversion gives `false`. -/
def QVariant.toBool : QVariant → Bool
  | .bool b => b
  | .int i => i != 0
  | .double d => qRound64 d != 0
  | .string s => !(s.toLower == "0" || s.toLower == "false" || s.isEmpty)
  | _ => false

/-- The 64-bit number behind `toInt()`; a failed conversion gives 0. -/
def QVariant.toLongLong (cv : Conv) : QVariant → Int
  | .bool b => if b then 1 else 0
  | .int i => i
  | .double d => qRound64 d
  | .string s => (cv.stringToLongLong s).getD 0
  | _ => 0

/-- Models `QVariant::toInt()`. -/
def QVariant.toInt (cv : Conv) (v : QVariant) : Int :=
  toInt32 (QVariant.toLongLong cv v)

/-- Models `QVariant::toUInt()`. -/
def QVariant.toUInt (cv : Conv) : QVariant → Int
  | .string s => toUInt32 ((cv.stringToULongLong s).getD 0)
  | v => toUInt32 (QVariant.toLongLong cv v)

/-- Models `QVariant::toReal()`; a failed conversion gives 0. -/
def QVariant.toReal (cv : Conv) : QVariant → ℚ
  | .bool b => if b then 1 else 0
  | .int i => i
  | .double d => d
  | .string s => (cv.stringToDouble s).getD 0
  | _ => 0

/-- Models `QVariant::toString()` (also the text behind `toByteArray()`); a failed
conversion gives the empty string. -/
def QVariant.toQString (cv : Conv) : QVariant → String
  | .bool b => if b then "true" else "false"
  | .int i => toString i
  | .double d => cv.doubleToString d
  | .string s => s
  | _ => ""

/-- Models `QVariant::toMap()`; a failed conversion gives the empty map. -/
def QVariant.toMap : QVariant → QVariantMap
  | .map m => m
  | _ => []

/-- Models `v.type() == QVariant::String`. -/
def QVariant.isString : QVariant → Bool
  | .string _ => true
  | _ => false

/-- Models `v.type() == QVariant::Int`. -/
def QVariant.isInt : QVariant → Bool
  | .int _ => true
  | _ => false

/-! ## QTime, QString::split -/

/-- Models `QTime`: milliseconds since midnight, `-1` for the null (invalid) time. -/
structure QTime where
  mds : Int
deriving DecidableEq

/-- Models `QTime::isValid(h, m, s = 0)`. -/
def QTime.isValidHM (h m : Int) : Bool :=
  decide (0 ≤ h) && decide (h < 24) && decide (0 ≤ m) && decide (m < 60)

/-- Models `QTime(h, m)`: the null time when the pair is not a time of day. -/
def QTime.ofHM (h m : Int) : QTime :=
  if QTime.isValidHM h m then ⟨(h * 3600 + m * 60) * 1000⟩ else ⟨-1⟩

/-- Models `QTime::isValid()`. -/
def QTime.isValid (t : QTime) : Bool :=
  decide (0 ≤ t.mds) && decide (t.mds < 86400000)

/-- Models `QTime::hour()`, `-1` for an invalid time. -/
def QTime.hour (t : QTime) : Int :=
  if t.isValid then t.mds / 3600000 else -1

/-- Models `QTime::minute()`, `-1` for an invalid time. -/
def QTime.minute (t : QTime) : Int :=
  if t.isValid then (t.mds % 3600000) / 60000 else -1

/-- The scan of `QString::split`: `cur` is the text since the last separator. -/
def splitAux (isSep : Char → Bool) (keepEmpty : Bool) : List Char → List Char → List String
  | [], cur => if keepEmpty || !cur.isEmpty then [String.mk cur] else []
  | c :: cs, cur =>
    if isSep c then
      if keepEmpty || !cur.isEmpty then String.mk cur :: splitAux isSep keepEmpty cs []
      else splitAux isSep keepEmpty cs []
    else splitAux isSep keepEmpty cs (cur ++ [c])

/-- Models `QString::split` on one-character separators, with `KeepEmptyParts`
(`keepEmpty = true`) or `SkipEmptyParts`. -/
def qSplit (isSep : Char → Bool) (keepEmpty : Bool) (s : String) : List String :=
  splitAux isSep keepEmpty s.toList []

/-- The matches of `QRegularExpression("\n|,")`: a newline or a comma. -/
def isWhitelistDelimiter (c : Char) : Bool :=
  c == '\n' || c == ','

/-! ## External collaborators -/

/-- Modelled from the spec: the result of a folder-registry operation
(`ScanFoldersModel::PathStatus`, declared outside this file), either `Ok` or a
failure with its error code; this file only tests for `Ok`. -/
inductive PathStatus where
  | Ok
  | Failed (code : Int)
deriving DecidableEq

/-- The collaborators `appcontroller.cpp` calls but does not define. -/
structure Env where
  /-- Qt text and number conversions. -/
  conv : Conv
  /-- Models `Utils::Fs::toNativePath`. -/
  toNativePath : String → String
  /-- Models `Utils::Fs::fromNativePath`. -/
  fromNativePath : String → String
  /-- Models `ScanFoldersModel::DEFAULT_LOCATION`. -/
  DEFAULT_LOCATION : Int
  /-- Models `ScanFoldersModel::CUSTOM_LOCATION`. -/
  CUSTOM_LOCATION : Int
  /-- Outcome of `ScanFoldersModel::addPath(folder, type, downloadPath)`. -/
  addPath : String → Int → String → PathStatus
  /-- Outcome of `ScanFoldersModel::updatePath(folder, type, downloadPath)`. -/
  updatePath : String → Int → String → PathStatus
  /-- Outcome of `ScanFoldersModel::removePath(folder)`; the caller drops it. -/
  removePath : String → PathStatus
  /-- Whether `QTranslator::load(":/lang/qbittorrent_" + locale)` succeeds. -/
  translatorLoad : String → Bool
  /-- Models `Utils::Password::PBKDF2::generate`, the hasher of the spec
  (`hash(plaintext) -> opaqueDigest`). -/
  pbkdf2Generate : String → String
  /-- Models `Utils::Net::parseSubnet` followed by `Utils::Net::subnetToString`;
  `none` for an entry the whitelist getter does not return. -/
  subnetToString : String → Option String

/-- A call made on the `ScanFoldersModel` instance. -/
inductive RegistryCall where
  | addPath (folder : String) (downloadType : Int) (downloadPath : String)
  | updatePath (folder : String) (downloadType : Int) (downloadPath : String)
  | removePath (folder : String)
deriving DecidableEq

/-- A translator handed to `qApp->installTranslator`: `loaded` records whether
its `load` succeeded (an unloaded translator is empty). -/
structure Translator where
  locale : String
  loaded : Bool
deriving DecidableEq

/-! ## The configuration store -/

/-- Boolean slots, named after their setters. -/
inductive BoolSetting where
  | createTorrentSubfolder | addTorrentPaused | preallocationEnabled
  | appendExtensionEnabled | autoTMMDisabledByDefault
  | disableAutoTMMWhenCategoryChanged | disableAutoTMMWhenDefaultSavePathChanged
  | disableAutoTMMWhenCategorySavePathChanged | tempPathEnabled
  | mailNotificationEnabled | mailNotificationSMTPSSL | mailNotificationSMTPAuth
  | autoRunEnabled | portForwarderEnabled | useRandomPort
  | proxyPeerConnectionsEnabled | forceProxyEnabled | proxyOnlyForTorrents
  | proxyAuthenticationRequired
  | ipFilteringEnabled | trackerFilteringEnabled
  | utpRateLimited | includeOverheadInLimits | ignoreLimitsOnLAN
  | bandwidthSchedulerEnabled | dhtEnabled | pexEnabled | lsdEnabled
  | anonymousModeEnabled | queueingSystemEnabled | ignoreSlowTorrentsForQueueing
  | addTrackersEnabled | useUPnPForWebUIPort | webUiHttpsEnabled
  | webUiLocalAuthEnabled | webUiAuthSubnetWhitelistEnabled | altWebUiEnabled
  | webUiClickjackingProtectionEnabled | webUiCSRFProtectionEnabled
  | webUIHostHeaderValidationEnabled | dynDNSEnabled
  | rssProcessingEnabled | rssAutoDownloadingEnabled
deriving DecidableEq

/-- Integer and enumeration slots, named after their setters. -/
inductive IntSetting where
  | autoDeleteMode | port | maxConnections | maxConnectionsPerTorrent
  | maxUploads | maxUploadsPerTorrent
  | globalDownloadSpeedLimit | globalUploadSpeedLimit
  | altGlobalDownloadSpeedLimit | altGlobalUploadSpeedLimit
  | btProtocol | schedulerDays | encryption
  | maxActiveDownloads | maxActiveTorrents | maxActiveUploads
  | downloadRateForSlowTorrents | uploadRateForSlowTorrents
  | slowTorrentsInactivityTimer | maxRatioAction
  | webUiPort | dynDNSService | rssRefreshInterval | rssMaxArticlesPerFeed
deriving DecidableEq

/-- Text slots, named after their setters. -/
inductive StrSetting where
  | defaultSavePath | tempPath | torrentExportDirectory
  | finishedTorrentExportDirectory
  | mailNotificationSender | mailNotificationEmail | mailNotificationSMTP
  | mailNotificationSMTPUsername | mailNotificationSMTPPassword
  | autoRunProgram | ipFilterFile | additionalTrackers
  | serverDomains | webUiAddress | webUIHttpsCertificatePath | webUIHttpsKeyPath
  | webUiUsername | webUiRootFolder
  | dynDNSUsername | dynDNSPassword | dynDomainName
deriving DecidableEq

/-- Models `Net::ProxyConfiguration`. -/
@[ext]
structure ProxyConfiguration where
  type : Int
  ip : String
  port : Int
  username : String
  password : String
deriving DecidableEq

/-- The configuration state behind the getters and setters: session settings,
preferences, proxy configuration, watched-folder set, locale, RSS settings.
Each slot holds the value last handed to its setter. -/
@[ext]
structure Store where
  bools : BoolSetting → Bool
  ints : IntSetting → Int
  strs : StrSetting → String
  /-- Models `Preferences::getScanDirs` / `setScanDirs`. -/
  scanDirs : QVariantHash
  proxyConfiguration : ProxyConfiguration
  bannedIPs : List String
  schedulerStartTime : QTime
  schedulerEndTime : QTime
  globalMaxRatio : ℚ
  globalMaxSeedingMinutes : Int
  locale : String
  /-- Models `Preferences::setWebUIPassword`. -/
  webUIPassword : String
  /-- The entry list handed to `Preferences::setWebUiAuthSubnetWhitelist`. -/
  webUiAuthSubnetWhitelist : List String

/-- The store together with what the action does outside it: the calls on the
folder registry, the installed translators, the number of `pref->apply()`. -/
structure World where
  store : Store
  registryCalls : List RegistryCall
  translators : List Translator
  applyCount : Nat

/-! ## setPreferencesAction -/

/-- The watched-folder spec of one `scan_dirs` entry: `(downloadType, downloadPath)`. -/
def folderSpec (env : Env) (v : QVariant) : Int × String :=
  if v.isString then
    (env.CUSTOM_LOCATION, env.fromNativePath (v.toQString env.conv))
  else
    let downloadType := v.toInt env.conv
    (downloadType, if downloadType == env.DEFAULT_LOCATION then "Default folder" else "Watch folder")

/-- The registry call issued for one `scan_dirs` entry: `addPath` when the
folder is not in the old set, else `updatePath`. -/
def folderCall (env : Env) (oldScanDirs : QVariantHash) (e : String × QVariant) : RegistryCall :=
  let folder := env.fromNativePath e.1
  let sp := folderSpec env e.2
  if !oldScanDirs.contains folder then RegistryCall.addPath folder sp.1 sp.2
  else RegistryCall.updatePath folder sp.1 sp.2

/-- The status `ec` the registry returns for one `scan_dirs` entry. -/
def folderStatus (env : Env) (oldScanDirs : QVariantHash) (e : String × QVariant) : PathStatus :=
  let folder := env.fromNativePath e.1
  let sp := folderSpec env e.2
  if !oldScanDirs.contains folder then env.addPath folder sp.1 sp.2
  else env.updatePath folder sp.1 sp.2

/-- One iteration of the loop over `nativeDirs`: the call, and the insertion
into `scanDirs` when the call returned `Ok`. -/
def scanDirsLoopBody (env : Env) (oldScanDirs : QVariantHash)
    (acc : QVariantHash × List RegistryCall) (e : String × QVariant) :
    QVariantHash × List RegistryCall :=
  let folder := env.fromNativePath e.1
  let sp := folderSpec env e.2
  let calls := acc.2 ++ [folderCall env oldScanDirs e]
  if folderStatus env oldScanDirs e = PathStatus.Ok then
    (QVariantHash.insert acc.1 folder
      (if sp.1 == env.CUSTOM_LOCATION then QVariant.string sp.2 else QVariant.int sp.1), calls)
  else (acc.1, calls)

/-- The folders of the loop "Update deleted folders": the old folders that
`scanDirs` does not contain. -/
def deletedFolders (oldScanDirs scanDirs : QVariantHash) : List String :=
  (oldScanDirs.filter (fun e => !scanDirs.contains e.1)).map Prod.fst

/-- The `scan_dirs` block: returns the new `scanDirs` and the registry calls, in order. -/
def reconcileScanDirs (env : Env) (nativeDirs : QVariantMap) (oldScanDirs : QVariantHash) :
    QVariantHash × List RegistryCall :=
  let r := nativeDirs.foldl (scanDirsLoopBody env oldScanDirs) ([], [])
  (r.1, r.2 ++ (deletedFolders oldScanDirs r.1).map RegistryCall.removePath)

/-- The statements of `setPreferencesAction`, one per line group of the source. -/
inductive Step where
  /-- Models `if (hasKey(key)) setF(it.value().toBool())`, negated when `negate`. -/
  | bool (key : String) (f : BoolSetting) (negate : Bool)
  /-- Models `if (hasKey(key)) setF(it.value().toInt())`. -/
  | int (key : String) (f : IntSetting)
  /-- Models `if (hasKey(key)) setF(it.value().toUInt())`. -/
  | uint (key : String) (f : IntSetting)
  /-- Models `if (hasKey(key)) setF(it.value().toString())`. -/
  | str (key : String) (f : StrSetting)
  | scanDirs
  | proxyConfiguration
  | bannedIPs
  | schedulerStartTime
  | schedulerEndTime
  | globalMaxRatio
  | globalMaxSeedingMinutes
  | addTrackers
  | locale
  | webUIPassword
  | authSubnetWhitelist
  | apply
deriving DecidableEq

/-- Replace the store of a world. -/
def World.withStore (w : World) (st : Store) : World :=
  { w with store := st }

/-- The effect of one statement on the world, for the patch `m`. -/
def applyStep (env : Env) (m : QVariantMap) (w : World) : Step → World
  | .bool key f negate =>
    match m.find key with
    | some v => w.withStore { w.store with
        bools := Function.update w.store.bools f (if negate then !v.toBool else v.toBool) }
    | none => w
  | .int key f =>
    match m.find key with
    | some v => w.withStore { w.store with
        ints := Function.update w.store.ints f (v.toInt env.conv) }
    | none => w
  | .uint key f =>
    match m.find key with
    | some v => w.withStore { w.store with
        ints := Function.update w.store.ints f (v.toUInt env.conv) }
    | none => w
  | .str key f =>
    match m.find key with
    | some v => w.withStore { w.store with
        strs := Function.update w.store.strs f (v.toQString env.conv) }
    | none => w
  | .scanDirs =>
    match m.find "scan_dirs" with
    | some v =>
      let r := reconcileScanDirs env v.toMap w.store.scanDirs
      { w with store := { w.store with scanDirs := r.1 },
               registryCalls := w.registryCalls ++ r.2 }
    | none => w
  | .proxyConfiguration =>
    let c0 := w.store.proxyConfiguration
    let c1 := match m.find "proxy_type" with
      | some v => { c0 with type := v.toInt env.conv }
      | none => c0
    let c2 := match m.find "proxy_ip" with
      | some v => { c1 with ip := v.toQString env.conv }
      | none => c1
    let c3 := match m.find "proxy_port" with
      | some v => { c2 with port := v.toUInt env.conv }
      | none => c2
    let c4 := match m.find "proxy_username" with
      | some v => { c3 with username := v.toQString env.conv }
      | none => c3
    let c5 := match m.find "proxy_password" with
      | some v => { c4 with password := v.toQString env.conv }
      | none => c4
    w.withStore { w.store with proxyConfiguration := c5 }
  | .bannedIPs =>
    match m.find "banned_IPs" with
    | some v => w.withStore { w.store with
        bannedIPs := qSplit (fun c => c == '\n') true (v.toQString env.conv) }
    | none => w
  | .schedulerStartTime =>
    if m.contains "schedule_from_hour" && m.contains "schedule_from_min" then
      w.withStore { w.store with
        schedulerStartTime := QTime.ofHM ((m.value "schedule_from_hour").toInt env.conv)
          ((m.value "schedule_from_min").toInt env.conv) }
    else w
  | .schedulerEndTime =>
    if m.contains "schedule_to_hour" && m.contains "schedule_to_min" then
      w.withStore { w.store with
        schedulerEndTime := QTime.ofHM ((m.value "schedule_to_hour").toInt env.conv)
          ((m.value "schedule_to_min").toInt env.conv) }
    else w
  | .globalMaxRatio =>
    match m.find "max_ratio_enabled" with
    | some v =>
      if v.toBool then
        w.withStore { w.store with globalMaxRatio := (m.value "max_ratio").toReal env.conv }
      else w.withStore { w.store with globalMaxRatio := -1 }
    | none => w
  | .globalMaxSeedingMinutes =>
    match m.find "max_seeding_time_enabled" with
    | some v =>
      if v.toBool then
        w.withStore { w.store with
          globalMaxSeedingMinutes := (m.value "max_seeding_time").toInt env.conv }
      else w.withStore { w.store with globalMaxSeedingMinutes := -1 }
    | none => w
  | .addTrackers =>
    w.withStore { w.store with
      bools := Function.update w.store.bools BoolSetting.addTrackersEnabled
        (m.value "add_trackers_enabled").toBool,
      strs := Function.update w.store.strs StrSetting.additionalTrackers
        ((m.value "add_trackers").toQString env.conv) }
  | .locale =>
    match m.find "locale" with
    | some v =>
      let locale := v.toQString env.conv
      if w.store.locale != locale then
        { w with store := { w.store with locale := locale },
                 translators := w.translators ++ [⟨locale, env.translatorLoad locale⟩] }
      else w
    | none => w
  | .webUIPassword =>
    match m.find "web_ui_password" with
    | some v => w.withStore { w.store with
        webUIPassword := env.pbkdf2Generate (v.toQString env.conv) }
    | none => w
  | .authSubnetWhitelist =>
    match m.find "bypass_auth_subnet_whitelist" with
    | some v => w.withStore { w.store with
        webUiAuthSubnetWhitelist := qSplit isWhitelistDelimiter false (v.toQString env.conv) }
    | none => w
  | .apply => { w with applyCount := w.applyCount + 1 }

/-- Downloads: adding a torrent, saving management, watched folders. -/
def downloadsSteps : List Step :=
  -- Downloads
  [Step.bool "create_subfolder_enabled" BoolSetting.createTorrentSubfolder false,
   Step.bool "start_paused_enabled" BoolSetting.addTorrentPaused false,
   Step.int "auto_delete_mode" IntSetting.autoDeleteMode,
   Step.bool "preallocate_all" BoolSetting.preallocationEnabled false,
   Step.bool "incomplete_files_ext" BoolSetting.appendExtensionEnabled false,
   -- Saving Management
   Step.bool "auto_tmm_enabled" BoolSetting.autoTMMDisabledByDefault true,
   Step.bool "torrent_changed_tmm_enabled" BoolSetting.disableAutoTMMWhenCategoryChanged true,
   Step.bool "save_path_changed_tmm_enabled" BoolSetting.disableAutoTMMWhenDefaultSavePathChanged true,
   Step.bool "category_changed_tmm_enabled" BoolSetting.disableAutoTMMWhenCategorySavePathChanged true,
   Step.str "save_path" StrSetting.defaultSavePath,
   Step.bool "temp_path_enabled" BoolSetting.tempPathEnabled false,
   Step.str "temp_path" StrSetting.tempPath,
   Step.str "export_dir" StrSetting.torrentExportDirectory,
   Step.str "export_dir_fin" StrSetting.finishedTorrentExportDirectory,
   -- Automatically add torrents from
   Step.scanDirs]

/-- Email notification and the external program run on completion. -/
def notificationSteps : List Step :=
  -- Email notification upon download completion
  [Step.bool "mail_notification_enabled" BoolSetting.mailNotificationEnabled false,
   Step.str "mail_notification_sender" StrSetting.mailNotificationSender,
   Step.str "mail_notification_email" StrSetting.mailNotificationEmail,
   Step.str "mail_notification_smtp" StrSetting.mailNotificationSMTP,
   Step.bool "mail_notification_ssl_enabled" BoolSetting.mailNotificationSMTPSSL false,
   Step.bool "mail_notification_auth_enabled" BoolSetting.mailNotificationSMTPAuth false,
   Step.str "mail_notification_username" StrSetting.mailNotificationSMTPUsername,
   Step.str "mail_notification_password" StrSetting.mailNotificationSMTPPassword,
   -- Run an external program on torrent completion
   Step.bool "autorun_enabled" BoolSetting.autoRunEnabled false,
   Step.str "autorun_program" StrSetting.autoRunProgram]

/-- Connection: listening port, limits, proxy server, IP filtering. -/
def connectionSteps : List Step :=
  -- Connection
  [Step.int "listen_port" IntSetting.port,
   Step.bool "upnp" BoolSetting.portForwarderEnabled false,
   Step.bool "random_port" BoolSetting.useRandomPort false,
   Step.int "max_connec" IntSetting.maxConnections,
   Step.int "max_connec_per_torrent" IntSetting.maxConnectionsPerTorrent,
   Step.int "max_uploads" IntSetting.maxUploads,
   Step.int "max_uploads_per_torrent" IntSetting.maxUploadsPerTorrent,
   -- Proxy Server
   Step.proxyConfiguration,
   Step.bool "proxy_peer_connections" BoolSetting.proxyPeerConnectionsEnabled false,
   Step.bool "force_proxy" BoolSetting.forceProxyEnabled false,
   Step.bool "proxy_torrents_only" BoolSetting.proxyOnlyForTorrents false,
   -- IP Filtering
   Step.bool "ip_filter_enabled" BoolSetting.ipFilteringEnabled false,
   Step.str "ip_filter_path" StrSetting.ipFilterFile,
   Step.bool "ip_filter_trackers" BoolSetting.trackerFilteringEnabled false,
   Step.bannedIPs]

/-- Speed: global rate limits and scheduling. -/
def speedSteps : List Step :=
  -- Speed
  [Step.int "dl_limit" IntSetting.globalDownloadSpeedLimit,
   Step.int "up_limit" IntSetting.globalUploadSpeedLimit,
   Step.int "alt_dl_limit" IntSetting.altGlobalDownloadSpeedLimit,
   Step.int "alt_up_limit" IntSetting.altGlobalUploadSpeedLimit,
   Step.int "bittorrent_protocol" IntSetting.btProtocol,
   Step.bool "limit_utp_rate" BoolSetting.utpRateLimited false,
   Step.bool "limit_tcp_overhead" BoolSetting.includeOverheadInLimits false,
   Step.bool "limit_lan_peers" BoolSetting.ignoreLimitsOnLAN true,
   -- Scheduling
   Step.bool "scheduler_enabled" BoolSetting.bandwidthSchedulerEnabled false,
   Step.schedulerStartTime,
   Step.schedulerEndTime,
   Step.int "scheduler_days" IntSetting.schedulerDays]

/-- Bittorrent: privacy, queueing, share ratio limiting, additional trackers. -/
def bittorrentSteps : List Step :=
  -- Bittorrent
  [Step.bool "dht" BoolSetting.dhtEnabled false,
   Step.bool "pex" BoolSetting.pexEnabled false,
   Step.bool "lsd" BoolSetting.lsdEnabled false,
   Step.int "encryption" IntSetting.encryption,
   Step.bool "anonymous_mode" BoolSetting.anonymousModeEnabled false,
   -- Torrent Queueing
   Step.bool "queueing_enabled" BoolSetting.queueingSystemEnabled false,
   Step.int "max_active_downloads" IntSetting.maxActiveDownloads,
   Step.int "max_active_torrents" IntSetting.maxActiveTorrents,
   Step.int "max_active_uploads" IntSetting.maxActiveUploads,
   Step.bool "dont_count_slow_torrents" BoolSetting.ignoreSlowTorrentsForQueueing false,
   Step.int "slow_torrent_dl_rate_threshold" IntSetting.downloadRateForSlowTorrents,
   Step.int "slow_torrent_ul_rate_threshold" IntSetting.uploadRateForSlowTorrents,
   Step.int "slow_torrent_inactive_timer" IntSetting.slowTorrentsInactivityTimer,
   -- Share Ratio Limiting
   Step.globalMaxRatio,
   Step.globalMaxSeedingMinutes,
   Step.int "max_ratio_act" IntSetting.maxRatioAction,
   -- Add trackers
   Step.addTrackers]

/-- Web UI: language, HTTP server, authentication, security, dynamic DNS. -/
def webUiSteps : List Step :=
  -- Web UI
  [Step.locale,
   Step.str "web_ui_domain_list" StrSetting.serverDomains,
   Step.str "web_ui_address" StrSetting.webUiAddress,
   Step.uint "web_ui_port" IntSetting.webUiPort,
   Step.bool "web_ui_upnp" BoolSetting.useUPnPForWebUIPort false,
   Step.bool "use_https" BoolSetting.webUiHttpsEnabled false,
   Step.str "web_ui_https_cert_path" StrSetting.webUIHttpsCertificatePath,
   Step.str "web_ui_https_key_path" StrSetting.webUIHttpsKeyPath,
   -- Authentication
   Step.str "web_ui_username" StrSetting.webUiUsername,
   Step.webUIPassword,
   Step.bool "bypass_local_auth" BoolSetting.webUiLocalAuthEnabled true,
   Step.bool "bypass_auth_subnet_whitelist_enabled" BoolSetting.webUiAuthSubnetWhitelistEnabled false,
   Step.authSubnetWhitelist,
   -- Use alternative Web UI
   Step.bool "alternative_webui_enabled" BoolSetting.altWebUiEnabled false,
   Step.str "alternative_webui_path" StrSetting.webUiRootFolder,
   -- Security
   Step.bool "web_ui_clickjacking_protection_enabled" BoolSetting.webUiClickjackingProtectionEnabled false,
   Step.bool "web_ui_csrf_protection_enabled" BoolSetting.webUiCSRFProtectionEnabled false,
   Step.bool "web_ui_host_header_validation_enabled" BoolSetting.webUIHostHeaderValidationEnabled false,
   -- Update my dynamic domain name
   Step.bool "dyndns_enabled" BoolSetting.dynDNSEnabled false,
   Step.int "dyndns_service" IntSetting.dynDNSService,
   Step.str "dyndns_username" StrSetting.dynDNSUsername,
   Step.str "dyndns_password" StrSetting.dynDNSPassword,
   Step.str "dyndns_domain" StrSetting.dynDomainName]

/-- Saving the preferences (`pref->apply()`), then the RSS settings. -/
def finalSteps : List Step :=
  -- Save preferences
  [Step.apply,
   -- RSS settings
   Step.uint "rss_refresh_interval" IntSetting.rssRefreshInterval,
   Step.int "rss_max_articles_per_feed" IntSetting.rssMaxArticlesPerFeed,
   Step.bool "rss_processing_enabled" BoolSetting.rssProcessingEnabled false,
   Step.bool "rss_auto_downloading_enabled" BoolSetting.rssAutoDownloadingEnabled false]

/-- The statements of `setPreferencesAction`, in source order. -/
def steps : List Step :=
  downloadsSteps ++ notificationSteps ++ connectionSteps ++ speedSteps ++
  bittorrentSteps ++ webUiSteps ++ finalSteps

/-- Models `AppController::setPreferencesAction` on the parsed patch `m`
(`QJsonDocument::fromJson(json).toVariant().toMap()`). -/
def setPreferencesAction (env : Env) (m : QVariantMap) (w : World) : World :=
  steps.foldl (applyStep env m) w

/-! ## preferencesAction -/

/-- The `nativeDirs` map of the snapshot: an `Int` value is kept, any other
value is read as a path. -/
def nativeScanDirs (env : Env) (dirs : QVariantHash) : QVariantMap :=
  dirs.map (fun e =>
    if e.2.isInt then (env.toNativePath e.1, QVariant.int (e.2.toInt env.conv))
    else (env.toNativePath e.1, QVariant.string (env.toNativePath (e.2.toQString env.conv))))

/-- Snapshot, Downloads section. -/
def downloadsData (env : Env) (st : Store) : QVariantMap :=
  -- Downloads
  -- When adding a torrent
  [("create_subfolder_enabled", QVariant.bool (st.bools BoolSetting.createTorrentSubfolder)),
   ("start_paused_enabled", QVariant.bool (st.bools BoolSetting.addTorrentPaused)),
   ("auto_delete_mode", QVariant.int (st.ints IntSetting.autoDeleteMode)),
   ("preallocate_all", QVariant.bool (st.bools BoolSetting.preallocationEnabled)),
   ("incomplete_files_ext", QVariant.bool (st.bools BoolSetting.appendExtensionEnabled)),
   -- Saving Management
   ("auto_tmm_enabled", QVariant.bool (!st.bools BoolSetting.autoTMMDisabledByDefault)),
   ("torrent_changed_tmm_enabled", QVariant.bool (!st.bools BoolSetting.disableAutoTMMWhenCategoryChanged)),
   ("save_path_changed_tmm_enabled", QVariant.bool (!st.bools BoolSetting.disableAutoTMMWhenDefaultSavePathChanged)),
   ("category_changed_tmm_enabled", QVariant.bool (!st.bools BoolSetting.disableAutoTMMWhenCategorySavePathChanged)),
   ("save_path", QVariant.string (env.toNativePath (st.strs StrSetting.defaultSavePath))),
   ("temp_path_enabled", QVariant.bool (st.bools BoolSetting.tempPathEnabled)),
   ("temp_path", QVariant.string (env.toNativePath (st.strs StrSetting.tempPath))),
   ("export_dir", QVariant.string (env.toNativePath (st.strs StrSetting.torrentExportDirectory))),
   ("export_dir_fin", QVariant.string (env.toNativePath (st.strs StrSetting.finishedTorrentExportDirectory))),
   -- Automatically add torrents from
   ("scan_dirs", QVariant.map (nativeScanDirs env st.scanDirs)),
   -- Email notification upon download completion
   ("mail_notification_enabled", QVariant.bool (st.bools BoolSetting.mailNotificationEnabled)),
   ("mail_notification_sender", QVariant.string (st.strs StrSetting.mailNotificationSender)),
   ("mail_notification_email", QVariant.string (st.strs StrSetting.mailNotificationEmail)),
   ("mail_notification_smtp", QVariant.string (st.strs StrSetting.mailNotificationSMTP)),
   ("mail_notification_ssl_enabled", QVariant.bool (st.bools BoolSetting.mailNotificationSMTPSSL)),
   ("mail_notification_auth_enabled", QVariant.bool (st.bools BoolSetting.mailNotificationSMTPAuth)),
   ("mail_notification_username", QVariant.string (st.strs StrSetting.mailNotificationSMTPUsername)),
   ("mail_notification_password", QVariant.string (st.strs StrSetting.mailNotificationSMTPPassword)),
   -- Run an external program on torrent completion
   ("autorun_enabled", QVariant.bool (st.bools BoolSetting.autoRunEnabled)),
   ("autorun_program", QVariant.string (env.toNativePath (st.strs StrSetting.autoRunProgram)))]

/-- Snapshot, Connection section. -/
def connectionData (env : Env) (st : Store) : QVariantMap :=
  -- Connection
  -- Listening Port
  [("listen_port", QVariant.int (st.ints IntSetting.port)),
   ("upnp", QVariant.bool (st.bools BoolSetting.portForwarderEnabled)),
   ("random_port", QVariant.bool (st.bools BoolSetting.useRandomPort)),
   -- Connections Limits
   ("max_connec", QVariant.int (st.ints IntSetting.maxConnections)),
   ("max_connec_per_torrent", QVariant.int (st.ints IntSetting.maxConnectionsPerTorrent)),
   ("max_uploads", QVariant.int (st.ints IntSetting.maxUploads)),
   ("max_uploads_per_torrent", QVariant.int (st.ints IntSetting.maxUploadsPerTorrent)),
   -- Proxy Server
   ("proxy_type", QVariant.int st.proxyConfiguration.type),
   ("proxy_ip", QVariant.string st.proxyConfiguration.ip),
   ("proxy_port", QVariant.int st.proxyConfiguration.port),
   ("proxy_auth_enabled", QVariant.bool (st.bools BoolSetting.proxyAuthenticationRequired)),
   ("proxy_username", QVariant.string st.proxyConfiguration.username),
   ("proxy_password", QVariant.string st.proxyConfiguration.password),
   ("proxy_peer_connections", QVariant.bool (st.bools BoolSetting.proxyPeerConnectionsEnabled)),
   ("force_proxy", QVariant.bool (st.bools BoolSetting.forceProxyEnabled)),
   ("proxy_torrents_only", QVariant.bool (st.bools BoolSetting.proxyOnlyForTorrents)),
   -- IP Filtering
   ("ip_filter_enabled", QVariant.bool (st.bools BoolSetting.ipFilteringEnabled)),
   ("ip_filter_path", QVariant.string (env.toNativePath (st.strs StrSetting.ipFilterFile))),
   ("ip_filter_trackers", QVariant.bool (st.bools BoolSetting.trackerFilteringEnabled)),
   ("banned_IPs", QVariant.string (String.intercalate "\n" st.bannedIPs))]

/-- Snapshot, Speed section. -/
def speedData (st : Store) : QVariantMap :=
  -- Speed
  -- Global Rate Limits
  [("dl_limit", QVariant.int (st.ints IntSetting.globalDownloadSpeedLimit)),
   ("up_limit", QVariant.int (st.ints IntSetting.globalUploadSpeedLimit)),
   ("alt_dl_limit", QVariant.int (st.ints IntSetting.altGlobalDownloadSpeedLimit)),
   ("alt_up_limit", QVariant.int (st.ints IntSetting.altGlobalUploadSpeedLimit)),
   ("bittorrent_protocol", QVariant.int (st.ints IntSetting.btProtocol)),
   ("limit_utp_rate", QVariant.bool (st.bools BoolSetting.utpRateLimited)),
   ("limit_tcp_overhead", QVariant.bool (st.bools BoolSetting.includeOverheadInLimits)),
   ("limit_lan_peers", QVariant.bool (!st.bools BoolSetting.ignoreLimitsOnLAN)),
   -- Scheduling
   ("scheduler_enabled", QVariant.bool (st.bools BoolSetting.bandwidthSchedulerEnabled)),
   ("schedule_from_hour", QVariant.int st.schedulerStartTime.hour),
   ("schedule_from_min", QVariant.int st.schedulerStartTime.minute),
   ("schedule_to_hour", QVariant.int st.schedulerEndTime.hour),
   ("schedule_to_min", QVariant.int st.schedulerEndTime.minute),
   ("scheduler_days", QVariant.int (st.ints IntSetting.schedulerDays))]

/-- Snapshot, Bittorrent section. -/
def bittorrentData (st : Store) : QVariantMap :=
  -- Bittorrent
  -- Privacy
  [("dht", QVariant.bool (st.bools BoolSetting.dhtEnabled)),
   ("pex", QVariant.bool (st.bools BoolSetting.pexEnabled)),
   ("lsd", QVariant.bool (st.bools BoolSetting.lsdEnabled)),
   ("encryption", QVariant.int (st.ints IntSetting.encryption)),
   ("anonymous_mode", QVariant.bool (st.bools BoolSetting.anonymousModeEnabled)),
   -- Torrent Queueing
   ("queueing_enabled", QVariant.bool (st.bools BoolSetting.queueingSystemEnabled)),
   ("max_active_downloads", QVariant.int (st.ints IntSetting.maxActiveDownloads)),
   ("max_active_torrents", QVariant.int (st.ints IntSetting.maxActiveTorrents)),
   ("max_active_uploads", QVariant.int (st.ints IntSetting.maxActiveUploads)),
   ("dont_count_slow_torrents", QVariant.bool (st.bools BoolSetting.ignoreSlowTorrentsForQueueing)),
   ("slow_torrent_dl_rate_threshold", QVariant.int (st.ints IntSetting.downloadRateForSlowTorrents)),
   ("slow_torrent_ul_rate_threshold", QVariant.int (st.ints IntSetting.uploadRateForSlowTorrents)),
   ("slow_torrent_inactive_timer", QVariant.int (st.ints IntSetting.slowTorrentsInactivityTimer)),
   -- Share Ratio Limiting
   ("max_ratio_enabled", QVariant.bool (decide (st.globalMaxRatio ≥ 0))),
   ("max_ratio", QVariant.double st.globalMaxRatio),
   ("max_seeding_time_enabled", QVariant.bool (decide (st.globalMaxSeedingMinutes ≥ 0))),
   ("max_seeding_time", QVariant.int st.globalMaxSeedingMinutes),
   ("max_ratio_act", QVariant.int (st.ints IntSetting.maxRatioAction)),
   -- Add trackers
   ("add_trackers_enabled", QVariant.bool (st.bools BoolSetting.addTrackersEnabled)),
   ("add_trackers", QVariant.string (st.strs StrSetting.additionalTrackers))]

/-- Snapshot, Web UI section. -/
def webUiData (env : Env) (st : Store) : QVariantMap :=
  -- Web UI
  -- Language
  [("locale", QVariant.string st.locale),
   -- HTTP Server
   ("web_ui_domain_list", QVariant.string (st.strs StrSetting.serverDomains)),
   ("web_ui_address", QVariant.string (st.strs StrSetting.webUiAddress)),
   ("web_ui_port", QVariant.int (st.ints IntSetting.webUiPort)),
   ("web_ui_upnp", QVariant.bool (st.bools BoolSetting.useUPnPForWebUIPort)),
   ("use_https", QVariant.bool (st.bools BoolSetting.webUiHttpsEnabled)),
   ("web_ui_https_cert_path", QVariant.string (st.strs StrSetting.webUIHttpsCertificatePath)),
   ("web_ui_https_key_path", QVariant.string (st.strs StrSetting.webUIHttpsKeyPath)),
   -- Authentication
   ("web_ui_username", QVariant.string (st.strs StrSetting.webUiUsername)),
   ("bypass_local_auth", QVariant.bool (!st.bools BoolSetting.webUiLocalAuthEnabled)),
   ("bypass_auth_subnet_whitelist_enabled", QVariant.bool (st.bools BoolSetting.webUiAuthSubnetWhitelistEnabled)),
   ("bypass_auth_subnet_whitelist", QVariant.string (String.intercalate "\n" (st.webUiAuthSubnetWhitelist.filterMap env.subnetToString))),
   -- Use alternative Web UI
   ("alternative_webui_enabled", QVariant.bool (st.bools BoolSetting.altWebUiEnabled)),
   ("alternative_webui_path", QVariant.string (st.strs StrSetting.webUiRootFolder)),
   -- Security
   ("web_ui_clickjacking_protection_enabled", QVariant.bool (st.bools BoolSetting.webUiClickjackingProtectionEnabled)),
   ("web_ui_csrf_protection_enabled", QVariant.bool (st.bools BoolSetting.webUiCSRFProtectionEnabled)),
   ("web_ui_host_header_validation_enabled", QVariant.bool (st.bools BoolSetting.webUIHostHeaderValidationEnabled)),
   -- Update my dynamic domain name
   ("dyndns_enabled", QVariant.bool (st.bools BoolSetting.dynDNSEnabled)),
   ("dyndns_service", QVariant.int (st.ints IntSetting.dynDNSService)),
   ("dyndns_username", QVariant.string (st.strs StrSetting.dynDNSUsername)),
   ("dyndns_password", QVariant.string (st.strs StrSetting.dynDNSPassword)),
   ("dyndns_domain", QVariant.string (st.strs StrSetting.dynDomainName))]

/-- Snapshot, RSS settings. -/
def rssData (st : Store) : QVariantMap :=
  -- RSS settings
  [("rss_refresh_interval", QVariant.int (st.ints IntSetting.rssRefreshInterval)),
   ("rss_max_articles_per_feed", QVariant.int (st.ints IntSetting.rssMaxArticlesPerFeed)),
   ("rss_processing_enabled", QVariant.bool (st.bools BoolSetting.rssProcessingEnabled)),
   ("rss_auto_downloading_enabled", QVariant.bool (st.bools BoolSetting.rssAutoDownloadingEnabled))]

/-- Models `AppController::preferencesAction`: the `data` map handed to `setResult`. -/
def preferencesAction (env : Env) (st : Store) : QVariantMap :=
  downloadsData env st ++ connectionData env st ++ speedData st ++
  bittorrentData st ++ webUiData env st ++ rssData st

/-! ## Sample collaborators and states -/

/-- Conversions that recognise no text as a number. -/
def sampleConv : Conv where
  stringToLongLong := fun _ => none
  stringToULongLong := fun _ => none
  stringToDouble := fun _ => none
  doubleToString := fun _ => "0"

/-- A platform whose native paths are the internal ones, with a registry that
accepts every folder and a loader that finds every translation. -/
def sampleEnv : Env where
  conv := sampleConv
  toNativePath := fun p => p
  fromNativePath := fun p => p
  DEFAULT_LOCATION := 1
  CUSTOM_LOCATION := 2
  addPath := fun _ _ _ => PathStatus.Ok
  updatePath := fun _ _ _ => PathStatus.Ok
  removePath := fun _ => PathStatus.Ok
  translatorLoad := fun _ => true
  pbkdf2Generate := fun p => "pbkdf2:" ++ p
  subnetToString := fun e => some e

/-- The sample platform with a registry whose `updatePath` always fails. -/
def failingUpdateEnv : Env :=
  { sampleEnv with updatePath := fun _ _ _ => PathStatus.Failed 1 }

/-- A store with the ratio limit 5/2, the seeding limit 90 minutes, the
window 08:00 to 20:00 and additional trackers enabled. -/
def sampleStore : Store where
  bools := fun f => f == BoolSetting.addTrackersEnabled
  ints := fun _ => 0
  strs := fun f => if f == StrSetting.additionalTrackers then "udp://tracker.example:6969" else ""
  scanDirs := []
  proxyConfiguration := ⟨0, "0.0.0.0", 8080, "", ""⟩
  bannedIPs := []
  schedulerStartTime := QTime.ofHM 8 0
  schedulerEndTime := QTime.ofHM 20 0
  globalMaxRatio := 5 / 2
  globalMaxSeedingMinutes := 90
  locale := "en"
  webUIPassword := ""
  webUiAuthSubnetWhitelist := []

/-- The sample store before any call of the action. -/
def sampleWorld : World where
  store := sampleStore
  registryCalls := []
  translators := []
  applyCount := 0

/-! ## Single statements, as functions of the component they write -/

/-- What the share-ratio statement leaves in the global max ratio `a`. -/
def ratioWrite (env : Env) (m : QVariantMap) (a : ℚ) : ℚ :=
  match m.find "max_ratio_enabled" with
  | some v => if v.toBool then (m.value "max_ratio").toReal env.conv else -1
  | none => a

/-- What the seeding-time statement leaves in the global max seeding minutes `a`. -/
def seedingWrite (env : Env) (m : QVariantMap) (a : Int) : Int :=
  match m.find "max_seeding_time_enabled" with
  | some v => if v.toBool then (m.value "max_seeding_time").toInt env.conv else -1
  | none => a

/-- What the statement on `schedule_from_hour` / `schedule_from_min` leaves in the start time `a`. -/
def startTimeWrite (env : Env) (m : QVariantMap) (a : QTime) : QTime :=
  if m.contains "schedule_from_hour" && m.contains "schedule_from_min" then
    QTime.ofHM ((m.value "schedule_from_hour").toInt env.conv)
      ((m.value "schedule_from_min").toInt env.conv)
  else a

/-- What the statement on `schedule_to_hour` / `schedule_to_min` leaves in the end time `a`. -/
def endTimeWrite (env : Env) (m : QVariantMap) (a : QTime) : QTime :=
  if m.contains "schedule_to_hour" && m.contains "schedule_to_min" then
    QTime.ofHM ((m.value "schedule_to_hour").toInt env.conv)
      ((m.value "schedule_to_min").toInt env.conv)
  else a

/-- What the whitelist statement leaves in the entry list `a`. -/
def whitelistWrite (env : Env) (m : QVariantMap) (a : List String) : List String :=
  match m.find "bypass_auth_subnet_whitelist" with
  | some v => qSplit isWhitelistDelimiter false (v.toQString env.conv)
  | none => a

/-- What the `scan_dirs` block leaves in the persisted set and the call log. -/
def scanDirsWrite (env : Env) (m : QVariantMap) (a : QVariantHash × List RegistryCall) :
    QVariantHash × List RegistryCall :=
  match m.find "scan_dirs" with
  | some v =>
    ((reconcileScanDirs env v.toMap a.1).1, a.2 ++ (reconcileScanDirs env v.toMap a.1).2)
  | none => a

/-- What the proxy statements leave in the proxy configuration `c0`. -/
def proxyWrite (env : Env) (m : QVariantMap) (c0 : ProxyConfiguration) : ProxyConfiguration :=
  let c1 := match m.find "proxy_type" with
    | some v => { c0 with type := v.toInt env.conv }
    | none => c0
  let c2 := match m.find "proxy_ip" with
    | some v => { c1 with ip := v.toQString env.conv }
    | none => c1
  let c3 := match m.find "proxy_port" with
    | some v => { c2 with port := v.toUInt env.conv }
    | none => c2
  let c4 := match m.find "proxy_username" with
    | some v => { c3 with username := v.toQString env.conv }
    | none => c3
  match m.find "proxy_password" with
    | some v => { c4 with password := v.toQString env.conv }
    | none => c4

/-- What the `banned_IPs` statement leaves in the list `a`. -/
def bannedIPsWrite (env : Env) (m : QVariantMap) (a : List String) : List String :=
  match m.find "banned_IPs" with
  | some v => qSplit (fun c => c == '\n') true (v.toQString env.conv)
  | none => a

/-- What the `locale` block leaves in the stored locale `a`. -/
def localeWrite (env : Env) (m : QVariantMap) (a : String) : String :=
  match m.find "locale" with
  | some v => if a != v.toQString env.conv then v.toQString env.conv else a
  | none => a

/-- What the `web_ui_password` statement leaves in the stored password `a`. -/
def passwordWrite (env : Env) (m : QVariantMap) (a : String) : String :=
  match m.find "web_ui_password" with
  | some v => env.pbkdf2Generate (v.toQString env.conv)
  | none => a

/-- A component `g` of the world that the transformation `F` either keeps or
overwrites with a value that does not depend on the world. -/
def KeptOrSet {α : Type} (F : World → World) (g : World → α) : Prop :=
  (∀ w, g (F w) = g w) ∨ (∃ c, ∀ w, g (F w) = c)

/-- Whether a registry call is a `removePath`. -/
def RegistryCall.isRemove : RegistryCall → Bool
  | .removePath _ => true
  | _ => false

/-- The registry calls issued by one run, in order. -/
def newRegistryCalls (env : Env) (m : QVariantMap) (w : World) : List RegistryCall :=
  (setPreferencesAction env m w).registryCalls.drop w.registryCalls.length

/-- The sample store with the watched folders `/A` (default location) and
`/B` (custom destination `/X`). -/
def watchedWorld : World :=
  { sampleWorld with store := { sampleStore with
      scanDirs := [("/A", QVariant.int 1), ("/B", QVariant.string "/X")] } }

/-- The patch whose `scan_dirs` asks for `/A` (default location) and `/C`
(download in the watched folder). -/
def watchedPatch : QVariantMap :=
  [("scan_dirs", QVariant.map [("/A", QVariant.double 1), ("/C", QVariant.double 0)])]

/-- The patch whose `scan_dirs` asks for `/C` alone. -/
def singleFolderPatch : QVariantMap :=
  [("scan_dirs", QVariant.map [("/C", QVariant.double 0)])]

/-- The patch keys a statement reads. -/
def Step.keys : Step → List String
  | .bool key _ _ => [key]
  | .int key _ => [key]
  | .uint key _ => [key]
  | .str key _ => [key]
  | .scanDirs => ["scan_dirs"]
  | .proxyConfiguration =>
    ["proxy_type", "proxy_ip", "proxy_port", "proxy_username", "proxy_password"]
  | .bannedIPs => ["banned_IPs"]
  | .schedulerStartTime => ["schedule_from_hour", "schedule_from_min"]
  | .schedulerEndTime => ["schedule_to_hour", "schedule_to_min"]
  | .globalMaxRatio => ["max_ratio_enabled", "max_ratio"]
  | .globalMaxSeedingMinutes => ["max_seeding_time_enabled", "max_seeding_time"]
  | .addTrackers => ["add_trackers_enabled", "add_trackers"]
  | .locale => ["locale"]
  | .webUIPassword => ["web_ui_password"]
  | .authSubnetWhitelist => ["bypass_auth_subnet_whitelist"]
  | .apply => []

/-- The world without its locale and its installed translators. -/
def World.forgetLocale (w : World) : World :=
  { w with store := { w.store with locale := "" }, translators := [] }

/-- The patch `m` without the key `key`. -/
def QVariantMap.without (m : QVariantMap) (key : String) : QVariantMap :=
  m.filter (fun e => e.1 != key)

/-- What the `locale` block leaves in the stored locale and the installed translators. -/
def localeBlockWrite (env : Env) (m : QVariantMap) (a : String × List Translator) :
    String × List Translator :=
  match m.find "locale" with
  | some v =>
    if a.1 != v.toQString env.conv then
      (v.toQString env.conv,
        a.2 ++ [⟨v.toQString env.conv, env.translatorLoad (v.toQString env.conv)⟩])
    else a
  | none => a

/-- The world without its installed translators. -/
def World.forgetTranslators (w : World) : World :=
  { w with translators := [] }

/-- The sample platform with a loader that finds no translation. -/
def failingLoadEnv : Env :=
  { sampleEnv with translatorLoad := fun _ => false }

/-- The boolean slot a statement writes, if any. -/
def Step.boolTarget : Step → Option BoolSetting
  | .bool _ f _ => some f
  | .addTrackers => some BoolSetting.addTrackersEnabled
  | _ => none

/-- The integer slot a statement writes, if any. -/
def Step.intTarget : Step → Option IntSetting
  | .int _ f => some f
  | .uint _ f => some f
  | _ => none

/-- The text slot a statement writes, if any. -/
def Step.strTarget : Step → Option StrSetting
  | .str _ f => some f
  | .addTrackers => some StrSetting.additionalTrackers
  | _ => none

/-- The request-side collaborators of the action. -/
structure Http where
  /-- Models `APIController::checkParams`: whether every required parameter is
  present; the action throws when it is not. -/
  checkParams : List (String × String) → List String → Bool
  /-- Models `QJsonDocument::fromJson(text.toUtf8()).toVariant()`: the invalid
  variant for text that is not JSON (the null document), a list for an array,
  a map for an object. -/
  fromJson : String → QVariant

/-- Models `params()["json"]`: the parameter, or the empty string. -/
def jsonParam (params : List (String × String)) : String :=
  (params.lookup "json").getD ""

/-- The whole of `AppController::setPreferencesAction` on a request:
`checkParams`, the parse of the `json` parameter into `m`, then the statements.
The result is `none` when `checkParams` throws. -/
def setPreferencesActionOnRequest (env : Env) (http : Http) (params : List (String × String))
    (w : World) : Option World :=
  if http.checkParams params ["json"] then
    some (setPreferencesAction env (http.fromJson (jsonParam params)).toMap w)
  else none

/-- A request side that wants every required parameter and parses only the
text of the empty object; any other text is not JSON for it. -/
def sampleHttp : Http where
  checkParams := fun params required => required.all (fun k => (params.lookup k).isSome)
  fromJson := fun text => if text == "\x7b\x7d" then QVariant.map [] else QVariant.invalid

/-- The sample store with every boolean slot set and the listening port 6881. -/
def configuredWorld : World :=
  { sampleWorld with store := { sampleStore with
      bools := fun _ => true,
      ints := fun f => if f == IntSetting.port then 6881 else 0 } }

/-- A patch with a text for `listen_port`, an object for `dht` and a number for
`max_connec`. -/
def mistypedPatch : QVariantMap :=
  [("dht", QVariant.map []), ("listen_port", QVariant.string "abc"),
   ("max_connec", QVariant.double 100)]

/-! ## Specification-side definitions -/

/-- The maximal non-empty runs of characters of `w` that are not separators, in
their order of appearance: `w` cut at every separator, empty pieces dropped. -/
def maximalRuns (isSep : Char → Bool) (w : List Char) : List (List Char) :=
  (w.splitOnP isSep).filter (fun r => !r.isEmpty)

/-! ## Projections of a run -/

/-- A component `g` of the world that only the statement `x0` writes, by `f`,
is after any run `f` applied once per occurrence of `x0`. -/
theorem proj_foldl_only {α : Type} (env : Env) (m : QVariantMap) (g : World → α)
    (x0 : Step) (f : α → α)
    (h : ∀ w x, g (applyStep env m w x) = if x = x0 then f (g w) else g w)
    (l : List Step) (w : World) :
    g (l.foldl (applyStep env m) w) = (l.filter (fun x => x = x0)).foldl (fun a _ => f a) (g w) := by
  induction l generalizing w with
  | nil => rfl
  | cons x l ih =>
    rw [List.foldl_cons, ih, h]
    by_cases hx : x = x0
    · simp [hx]
    · simp [hx]

/-- Apply `f` once: what `proj_foldl_only` leaves for a statement that occurs once. -/
theorem proj_run_only {α : Type} (env : Env) (m : QVariantMap) (g : World → α)
    (x0 : Step) (f : α → α)
    (h : ∀ w x, g (applyStep env m w x) = if x = x0 then f (g w) else g w)
    (hx0 : steps.filter (fun x => x = x0) = [x0]) (w : World) :
    g (setPreferencesAction env m w) = f (g w) := by
  unfold setPreferencesAction
  rw [proj_foldl_only env m g x0 f h, hx0]
  rfl

theorem globalMaxRatio_applyStep (env : Env) (m : QVariantMap) (w : World) (x : Step) :
    (applyStep env m w x).store.globalMaxRatio =
      if x = Step.globalMaxRatio then ratioWrite env m w.store.globalMaxRatio
      else w.store.globalMaxRatio := by
  cases x <;> simp only [applyStep, World.withStore, ratioWrite] <;> (repeat (split <;> try rfl)) <;> simp_all

theorem globalMaxSeedingMinutes_applyStep (env : Env) (m : QVariantMap) (w : World) (x : Step) :
    (applyStep env m w x).store.globalMaxSeedingMinutes =
      if x = Step.globalMaxSeedingMinutes then seedingWrite env m w.store.globalMaxSeedingMinutes
      else w.store.globalMaxSeedingMinutes := by
  cases x <;> simp only [applyStep, World.withStore, seedingWrite] <;> (repeat (split <;> try rfl)) <;> simp_all

theorem schedulerStartTime_applyStep (env : Env) (m : QVariantMap) (w : World) (x : Step) :
    (applyStep env m w x).store.schedulerStartTime =
      if x = Step.schedulerStartTime then startTimeWrite env m w.store.schedulerStartTime
      else w.store.schedulerStartTime := by
  cases x <;> simp only [applyStep, World.withStore, startTimeWrite] <;> (repeat (split <;> try rfl)) <;> simp_all

theorem schedulerEndTime_applyStep (env : Env) (m : QVariantMap) (w : World) (x : Step) :
    (applyStep env m w x).store.schedulerEndTime =
      if x = Step.schedulerEndTime then endTimeWrite env m w.store.schedulerEndTime
      else w.store.schedulerEndTime := by
  cases x <;> simp only [applyStep, World.withStore, endTimeWrite] <;> (repeat (split <;> try rfl)) <;> simp_all

theorem whitelist_applyStep (env : Env) (m : QVariantMap) (w : World) (x : Step) :
    (applyStep env m w x).store.webUiAuthSubnetWhitelist =
      if x = Step.authSubnetWhitelist then whitelistWrite env m w.store.webUiAuthSubnetWhitelist
      else w.store.webUiAuthSubnetWhitelist := by
  cases x <;> simp only [applyStep, World.withStore, whitelistWrite] <;> (repeat (split <;> try rfl)) <;> simp_all

theorem scanDirs_applyStep (env : Env) (m : QVariantMap) (w : World) (x : Step) :
    ((applyStep env m w x).store.scanDirs, (applyStep env m w x).registryCalls) =
      if x = Step.scanDirs then scanDirsWrite env m (w.store.scanDirs, w.registryCalls)
      else (w.store.scanDirs, w.registryCalls) := by
  cases x <;> simp only [applyStep, World.withStore, scanDirsWrite] <;> (repeat (split <;> try rfl)) <;> simp_all

theorem globalMaxRatio_run (env : Env) (m : QVariantMap) (w : World) :
    (setPreferencesAction env m w).store.globalMaxRatio
      = ratioWrite env m w.store.globalMaxRatio :=
  proj_run_only env m (fun w => w.store.globalMaxRatio) Step.globalMaxRatio
    (ratioWrite env m) (globalMaxRatio_applyStep env m) (by decide) w

theorem globalMaxSeedingMinutes_run (env : Env) (m : QVariantMap) (w : World) :
    (setPreferencesAction env m w).store.globalMaxSeedingMinutes
      = seedingWrite env m w.store.globalMaxSeedingMinutes :=
  proj_run_only env m (fun w => w.store.globalMaxSeedingMinutes) Step.globalMaxSeedingMinutes
    (seedingWrite env m) (globalMaxSeedingMinutes_applyStep env m) (by decide) w

theorem schedulerStartTime_run (env : Env) (m : QVariantMap) (w : World) :
    (setPreferencesAction env m w).store.schedulerStartTime
      = startTimeWrite env m w.store.schedulerStartTime :=
  proj_run_only env m (fun w => w.store.schedulerStartTime) Step.schedulerStartTime
    (startTimeWrite env m) (schedulerStartTime_applyStep env m) (by decide) w

theorem schedulerEndTime_run (env : Env) (m : QVariantMap) (w : World) :
    (setPreferencesAction env m w).store.schedulerEndTime
      = endTimeWrite env m w.store.schedulerEndTime :=
  proj_run_only env m (fun w => w.store.schedulerEndTime) Step.schedulerEndTime
    (endTimeWrite env m) (schedulerEndTime_applyStep env m) (by decide) w

theorem whitelist_run (env : Env) (m : QVariantMap) (w : World) :
    (setPreferencesAction env m w).store.webUiAuthSubnetWhitelist
      = whitelistWrite env m w.store.webUiAuthSubnetWhitelist :=
  proj_run_only env m (fun w => w.store.webUiAuthSubnetWhitelist) Step.authSubnetWhitelist
    (whitelistWrite env m) (whitelist_applyStep env m) (by decide) w

theorem scanDirs_run (env : Env) (m : QVariantMap) (w : World) :
    ((setPreferencesAction env m w).store.scanDirs, (setPreferencesAction env m w).registryCalls)
      = scanDirsWrite env m (w.store.scanDirs, w.registryCalls) :=
  proj_run_only env m (fun w => (w.store.scanDirs, w.registryCalls)) Step.scanDirs
    (scanDirsWrite env m) (scanDirs_applyStep env m) (by decide) w

/-! ## The snapshot entries of the share-ratio limits -/

theorem snapshot_max_ratio_enabled (env : Env) (st : Store) :
    (preferencesAction env st).find "max_ratio_enabled"
      = some (QVariant.bool (decide (st.globalMaxRatio ≥ 0))) := by
  simp [preferencesAction, downloadsData, connectionData, speedData, bittorrentData,
    QVariantMap.find, List.lookup]

theorem snapshot_max_ratio (env : Env) (st : Store) :
    (preferencesAction env st).find "max_ratio" = some (QVariant.double st.globalMaxRatio) := by
  simp [preferencesAction, downloadsData, connectionData, speedData, bittorrentData,
    QVariantMap.find, List.lookup]

theorem snapshot_max_seeding_time_enabled (env : Env) (st : Store) :
    (preferencesAction env st).find "max_seeding_time_enabled"
      = some (QVariant.bool (decide (st.globalMaxSeedingMinutes ≥ 0))) := by
  simp [preferencesAction, downloadsData, connectionData, speedData, bittorrentData,
    QVariantMap.find, List.lookup]

theorem snapshot_max_seeding_time (env : Env) (st : Store) :
    (preferencesAction env st).find "max_seeding_time"
      = some (QVariant.int st.globalMaxSeedingMinutes) := by
  simp [preferencesAction, downloadsData, connectionData, speedData, bittorrentData,
    QVariantMap.find, List.lookup]

theorem qRound64_intCast (t : Int) : qRound64 (t : ℚ) = t := by
  unfold qRound64
  rw [Int.floor_eq_iff]
  constructor
  · linarith
  · linarith

theorem toInt32_of_range (t : Int) (h0 : 0 ≤ t) (h1 : t < 2147483648) : toInt32 t = t := by
  unfold toInt32
  omega

/-! ## Share-ratio and seeding-time limits (C3, C4, C5) -/

/-- C4: when `max_ratio_enabled` (resp. `max_seeding_time_enabled`) is present
and false, the run stores the sentinel -1 as the global max ratio (resp. max
seeding minutes), whatever else the patch carries, and the following snapshot
reports the enabled flag as false. -/
theorem C4_disabled_stores_sentinel (env : Env) (m : QVariantMap) (w : World) :
    (m.find "max_ratio_enabled" = some (QVariant.bool false) →
      (setPreferencesAction env m w).store.globalMaxRatio = -1 ∧
      (preferencesAction env (setPreferencesAction env m w).store).find "max_ratio_enabled"
        = some (QVariant.bool false)) ∧
    (m.find "max_seeding_time_enabled" = some (QVariant.bool false) →
      (setPreferencesAction env m w).store.globalMaxSeedingMinutes = -1 ∧
      (preferencesAction env (setPreferencesAction env m w).store).find "max_seeding_time_enabled"
        = some (QVariant.bool false)) := by
  constructor
  · intro h
    have h1 : (setPreferencesAction env m w).store.globalMaxRatio = -1 := by
      rw [globalMaxRatio_run]; simp [ratioWrite, h, QVariant.toBool]
    refine ⟨h1, ?_⟩
    rw [snapshot_max_ratio_enabled, h1]
    simp
  · intro h
    have h1 : (setPreferencesAction env m w).store.globalMaxSeedingMinutes = -1 := by
      rw [globalMaxSeedingMinutes_run]; simp [seedingWrite, h, QVariant.toBool]
    refine ⟨h1, ?_⟩
    rw [snapshot_max_seeding_time_enabled, h1]
    simp

/-- C4 at a patch that disables both limits and still carries magnitudes. -/
theorem C4_disabled_stores_sentinel_witness :
    (setPreferencesAction sampleEnv
        [("max_ratio", QVariant.double 3), ("max_ratio_enabled", QVariant.bool false),
         ("max_seeding_time", QVariant.double 45),
         ("max_seeding_time_enabled", QVariant.bool false)] sampleWorld).store.globalMaxRatio = -1 ∧
    (setPreferencesAction sampleEnv
        [("max_ratio", QVariant.double 3), ("max_ratio_enabled", QVariant.bool false),
         ("max_seeding_time", QVariant.double 45),
         ("max_seeding_time_enabled", QVariant.bool false)]
        sampleWorld).store.globalMaxSeedingMinutes = -1 :=
  ⟨((C4_disabled_stores_sentinel sampleEnv _ sampleWorld).1
      (by simp [QVariantMap.find, List.lookup])).1,
   ((C4_disabled_stores_sentinel sampleEnv _ sampleWorld).2
      (by simp [QVariantMap.find, List.lookup])).1⟩

/-- C5 (the code at the failing input): on a store whose ratio limit is 5/2
and whose seeding limit is 90 minutes, the patch that carries only
`max_ratio_enabled = true` and `max_seeding_time_enabled = true` stores the
magnitude 0 for both: the absent magnitude key is read as the default value. -/
theorem C5_absent_magnitude_stores_zero :
    sampleWorld.store.globalMaxRatio = 5 / 2 ∧
    sampleWorld.store.globalMaxSeedingMinutes = 90 ∧
    (setPreferencesAction sampleEnv
        [("max_ratio_enabled", QVariant.bool true),
         ("max_seeding_time_enabled", QVariant.bool true)] sampleWorld).store.globalMaxRatio = 0 ∧
    (setPreferencesAction sampleEnv
        [("max_ratio_enabled", QVariant.bool true),
         ("max_seeding_time_enabled", QVariant.bool true)]
        sampleWorld).store.globalMaxSeedingMinutes = 0 := by
  refine ⟨rfl, rfl, ?_, ?_⟩
  · rw [globalMaxRatio_run]
    simp [ratioWrite, QVariantMap.find, QVariantMap.value, List.lookup, QVariant.toBool,
      QVariant.toReal]
  · rw [globalMaxSeedingMinutes_run]
    simp [seedingWrite, QVariantMap.find, QVariantMap.value, List.lookup, QVariant.toBool,
      QVariant.toInt, QVariant.toLongLong, toInt32]

/-- C3, as stated, fails for the seeding time at the magnitude 2^31: the patch
`max_seeding_time_enabled = true, max_seeding_time = 2147483648` is read
through `toInt()`, the stored minutes are negative and the snapshot reports the
limit as disabled. -/
theorem C3_counterexample :
    (preferencesAction sampleEnv
        (setPreferencesAction sampleEnv
          [("max_seeding_time_enabled", QVariant.bool true),
           ("max_seeding_time", QVariant.double 2147483648)]
          sampleWorld).store).find "max_seeding_time_enabled" = some (QVariant.bool false) ∧
    (preferencesAction sampleEnv
        (setPreferencesAction sampleEnv
          [("max_seeding_time_enabled", QVariant.bool true),
           ("max_seeding_time", QVariant.double 2147483648)]
          sampleWorld).store).find "max_seeding_time" ≠ some (QVariant.int 2147483648) := by
  have h : (setPreferencesAction sampleEnv
          [("max_seeding_time_enabled", QVariant.bool true),
           ("max_seeding_time", QVariant.double 2147483648)]
          sampleWorld).store.globalMaxSeedingMinutes = -2147483648 := by
    rw [globalMaxSeedingMinutes_run]
    have hr : qRound64 (2147483648 : ℚ) = 2147483648 := by
      have := qRound64_intCast 2147483648
      simpa using this
    simp [seedingWrite, QVariantMap.find, QVariantMap.value, List.lookup, QVariant.toBool,
      QVariant.toInt, QVariant.toLongLong, toInt32, hr]
  rw [snapshot_max_seeding_time_enabled, snapshot_max_seeding_time, h]
  simp

/-- C3 (amended): for a patch that carries `max_ratio_enabled = e` and
`max_ratio = t` with `t ≥ 0`, the snapshot after the run reports
`max_ratio_enabled = e` and, when `e` is true, `max_ratio = t`; for a patch
that carries `max_seeding_time_enabled = e` and `max_seeding_time = t` with
`0 ≤ t < 2^31` (a magnitude that fits the `int` of `toInt()`), the snapshot
reports `max_seeding_time_enabled = e` and, when `e` is true,
`max_seeding_time = t`. -/
theorem C3_sentinel_round_trip (env : Env) (m : QVariantMap) (w : World) (e : Bool) :
    (∀ t : ℚ, 0 ≤ t →
      m.find "max_ratio_enabled" = some (QVariant.bool e) →
      m.find "max_ratio" = some (QVariant.double t) →
      (preferencesAction env (setPreferencesAction env m w).store).find "max_ratio_enabled"
        = some (QVariant.bool e) ∧
      (e = true →
        (preferencesAction env (setPreferencesAction env m w).store).find "max_ratio"
          = some (QVariant.double t))) ∧
    (∀ t : Int, 0 ≤ t → t < 2147483648 →
      m.find "max_seeding_time_enabled" = some (QVariant.bool e) →
      m.find "max_seeding_time" = some (QVariant.double t) →
      (preferencesAction env (setPreferencesAction env m w).store).find "max_seeding_time_enabled"
        = some (QVariant.bool e) ∧
      (e = true →
        (preferencesAction env (setPreferencesAction env m w).store).find "max_seeding_time"
          = some (QVariant.int t))) := by
  constructor
  · intro t ht he hm
    rw [snapshot_max_ratio_enabled, snapshot_max_ratio, globalMaxRatio_run]
    cases e with
    | false => simp [ratioWrite, he, QVariant.toBool]
    | true => simp [ratioWrite, he, hm, QVariantMap.value, QVariant.toBool, QVariant.toReal, ht]
  · intro t ht0 ht1 he hm
    rw [snapshot_max_seeding_time_enabled, snapshot_max_seeding_time, globalMaxSeedingMinutes_run]
    cases e with
    | false => simp [seedingWrite, he, QVariant.toBool]
    | true =>
      simp [seedingWrite, he, hm, QVariantMap.value, QVariant.toBool, QVariant.toInt,
        QVariant.toLongLong, qRound64_intCast, toInt32_of_range t ht0 ht1, ht0]

/-- C3 (amended) at the patch that enables both limits with the magnitudes 3/2 and 45. -/
theorem C3_sentinel_round_trip_witness :
    (preferencesAction sampleEnv
        (setPreferencesAction sampleEnv
          [("max_ratio_enabled", QVariant.bool true), ("max_ratio", QVariant.double (3 / 2)),
           ("max_seeding_time_enabled", QVariant.bool true),
           ("max_seeding_time", QVariant.double ((45 : Int) : ℚ))]
          sampleWorld).store).find "max_ratio" = some (QVariant.double (3 / 2)) ∧
    (preferencesAction sampleEnv
        (setPreferencesAction sampleEnv
          [("max_ratio_enabled", QVariant.bool true), ("max_ratio", QVariant.double (3 / 2)),
           ("max_seeding_time_enabled", QVariant.bool true),
           ("max_seeding_time", QVariant.double ((45 : Int) : ℚ))]
          sampleWorld).store).find "max_seeding_time" = some (QVariant.int 45) :=
  ⟨((C3_sentinel_round_trip sampleEnv _ sampleWorld true).1 (3 / 2) (by norm_num)
      (by simp [QVariantMap.find, List.lookup]) (by simp [QVariantMap.find, List.lookup])).2 rfl,
   ((C3_sentinel_round_trip sampleEnv _ sampleWorld true).2 45 (by norm_num) (by norm_num)
      (by simp [QVariantMap.find, List.lookup]) (by simp [QVariantMap.find, List.lookup])).2 rfl⟩

/-! ## The schedule window (C6) -/

theorem QTime.hour_minute_ofHM (h mi : Int) (h0 : 0 ≤ h) (h1 : h < 24) (m0 : 0 ≤ mi)
    (m1 : mi < 60) : (QTime.ofHM h mi).hour = h ∧ (QTime.ofHM h mi).minute = mi := by
  have hv : QTime.isValidHM h mi = true := by simp [QTime.isValidHM, h0, h1, m0, m1]
  have hv2 : (QTime.mk ((h * 3600 + mi * 60) * 1000)).isValid = true := by
    simp only [QTime.isValid, Bool.and_eq_true, decide_eq_true_eq]
    omega
  simp only [QTime.ofHM, hv, if_true, QTime.hour, QTime.minute, hv2]
  omega

theorem QTime.ofHM_of_not_valid (h mi : Int) (hv : QTime.isValidHM h mi = false) :
    QTime.ofHM h mi = ⟨-1⟩ ∧ (QTime.ofHM h mi).hour = -1 ∧ (QTime.ofHM h mi).minute = -1 := by
  simp [QTime.ofHM, hv, QTime.hour, QTime.minute, QTime.isValid]

theorem toInt_double_intCast (cv : Conv) (t : Int) (h0 : 0 ≤ t) (h1 : t < 2147483648) :
    (QVariant.double (t : ℚ)).toInt cv = t := by
  simp [QVariant.toInt, QVariant.toLongLong, qRound64_intCast, toInt32_of_range t h0 h1]

/-- C6, as stated, fails when the supplied pair is not a time of day: the patch
`schedule_from_hour = 24, schedule_from_min = 0` writes the null time, whose
hour and minute are -1, not the supplied (24, 0). -/
theorem C6_counterexample :
    (setPreferencesAction sampleEnv
        [("schedule_from_hour", QVariant.double ((24 : Int) : ℚ)),
         ("schedule_from_min", QVariant.double ((0 : Int) : ℚ))]
        sampleWorld).store.schedulerStartTime.hour = -1 ∧
    (setPreferencesAction sampleEnv
        [("schedule_from_hour", QVariant.double ((24 : Int) : ℚ)),
         ("schedule_from_min", QVariant.double ((0 : Int) : ℚ))]
        sampleWorld).store.schedulerStartTime.minute = -1 := by
  have h : (setPreferencesAction sampleEnv
        [("schedule_from_hour", QVariant.double ((24 : Int) : ℚ)),
         ("schedule_from_min", QVariant.double ((0 : Int) : ℚ))]
        sampleWorld).store.schedulerStartTime = QTime.ofHM 24 0 := by
    rw [schedulerStartTime_run]
    simp only [startTimeWrite, QVariantMap.contains, QVariantMap.value, QVariantMap.find]
    have h24 : (QVariant.double (24 : ℚ)).toInt sampleEnv.conv = 24 := by
      simpa using toInt_double_intCast sampleEnv.conv 24 (by norm_num) (by norm_num)
    have h00 : (QVariant.double (0 : ℚ)).toInt sampleEnv.conv = 0 := by
      simpa using toInt_double_intCast sampleEnv.conv 0 (by norm_num) (by norm_num)
    simp [List.lookup, h24, h00]
  rw [h]
  exact (QTime.ofHM_of_not_valid 24 0 (by decide)).2

/-- C6 (amended): when a patch does not contain both `schedule_from_hour` and
`schedule_from_min` (resp. both `schedule_to_hour` and `schedule_to_min`), the
run leaves the scheduler start time (resp. end time) unchanged; when it
contains both, the bound is set to `QTime(hour, minute)` of the values read by
`toInt()`: for supplied integers with `0 ≤ hour ≤ 23` and `0 ≤ minute ≤ 59` its
hour and minute are the supplied ones, and for a pair that is not a time of day
it is the null time. -/
theorem C6_schedule_window (env : Env) (m : QVariantMap) (w : World) :
    ((m.contains "schedule_from_hour" && m.contains "schedule_from_min") = false →
      (setPreferencesAction env m w).store.schedulerStartTime = w.store.schedulerStartTime) ∧
    ((m.contains "schedule_to_hour" && m.contains "schedule_to_min") = false →
      (setPreferencesAction env m w).store.schedulerEndTime = w.store.schedulerEndTime) ∧
    ((m.contains "schedule_from_hour" && m.contains "schedule_from_min") = true →
      (setPreferencesAction env m w).store.schedulerStartTime
        = QTime.ofHM ((m.value "schedule_from_hour").toInt env.conv)
            ((m.value "schedule_from_min").toInt env.conv)) ∧
    ((m.contains "schedule_to_hour" && m.contains "schedule_to_min") = true →
      (setPreferencesAction env m w).store.schedulerEndTime
        = QTime.ofHM ((m.value "schedule_to_hour").toInt env.conv)
            ((m.value "schedule_to_min").toInt env.conv)) ∧
    (∀ h mi : Int, 0 ≤ h → h < 24 → 0 ≤ mi → mi < 60 →
      m.find "schedule_from_hour" = some (QVariant.double h) →
      m.find "schedule_from_min" = some (QVariant.double mi) →
      (setPreferencesAction env m w).store.schedulerStartTime.hour = h ∧
      (setPreferencesAction env m w).store.schedulerStartTime.minute = mi) ∧
    (∀ h mi : Int, 0 ≤ h → h < 24 → 0 ≤ mi → mi < 60 →
      m.find "schedule_to_hour" = some (QVariant.double h) →
      m.find "schedule_to_min" = some (QVariant.double mi) →
      (setPreferencesAction env m w).store.schedulerEndTime.hour = h ∧
      (setPreferencesAction env m w).store.schedulerEndTime.minute = mi) := by
  refine ⟨?_, ?_, ?_, ?_, ?_, ?_⟩
  · intro h
    rw [schedulerStartTime_run, startTimeWrite, h]; rfl
  · intro h
    rw [schedulerEndTime_run, endTimeWrite, h]; rfl
  · intro h
    rw [schedulerStartTime_run, startTimeWrite, h]; rfl
  · intro h
    rw [schedulerEndTime_run, endTimeWrite, h]; rfl
  · intro h mi h0 h1 m0 m1 hh hm
    rw [schedulerStartTime_run]
    simp only [startTimeWrite, QVariantMap.contains, QVariantMap.value, hh, hm, Option.isSome_some,
      Bool.and_self, if_true, Option.getD_some]
    rw [toInt_double_intCast _ h h0 (by omega), toInt_double_intCast _ mi m0 (by omega)]
    exact QTime.hour_minute_ofHM h mi h0 h1 m0 m1
  · intro h mi h0 h1 m0 m1 hh hm
    rw [schedulerEndTime_run]
    simp only [endTimeWrite, QVariantMap.contains, QVariantMap.value, hh, hm, Option.isSome_some,
      Bool.and_self, if_true, Option.getD_some]
    rw [toInt_double_intCast _ h h0 (by omega), toInt_double_intCast _ mi m0 (by omega)]
    exact QTime.hour_minute_ofHM h mi h0 h1 m0 m1

/-- C6 (amended) at the store with the window 08:00 to 20:00: the patch with
`schedule_from_hour = 22` alone leaves the start time, and the patch with
`schedule_to_hour = 23, schedule_to_min = 30` sets the end time to 23:30. -/
theorem C6_schedule_window_witness :
    (setPreferencesAction sampleEnv [("schedule_from_hour", QVariant.double ((22 : Int) : ℚ))]
        sampleWorld).store.schedulerStartTime = sampleWorld.store.schedulerStartTime ∧
    ((setPreferencesAction sampleEnv
        [("schedule_to_hour", QVariant.double ((23 : Int) : ℚ)),
         ("schedule_to_min", QVariant.double ((30 : Int) : ℚ))]
        sampleWorld).store.schedulerEndTime.hour = 23 ∧
     (setPreferencesAction sampleEnv
        [("schedule_to_hour", QVariant.double ((23 : Int) : ℚ)),
         ("schedule_to_min", QVariant.double ((30 : Int) : ℚ))]
        sampleWorld).store.schedulerEndTime.minute = 30) :=
  ⟨(C6_schedule_window sampleEnv _ sampleWorld).1
      (by simp [QVariantMap.contains, QVariantMap.find, List.lookup]),
   (C6_schedule_window sampleEnv _ sampleWorld).2.2.2.2.2 23 30 (by norm_num) (by norm_num)
      (by norm_num) (by norm_num) (by simp [QVariantMap.find, List.lookup])
      (by simp [QVariantMap.find, List.lookup])⟩

/-! ## The subnet whitelist (C10) -/

theorem splitAux_skip_eq (isSep : Char → Bool) (cs cur : List Char) :
    splitAux isSep false cs cur =
      (((cs.splitOnP isSep).modifyHead (fun r => cur ++ r)).filter
        (fun r => !r.isEmpty)).map String.mk := by
  induction cs generalizing cur with
  | nil => cases cur <;> simp [splitAux, List.splitOnP_nil]
  | cons c cs ih =>
    obtain ⟨hd, tl, hsp⟩ : ∃ hd tl, cs.splitOnP isSep = hd :: tl := by
      cases h : cs.splitOnP isSep with
      | nil => exact absurd h (List.splitOnP_ne_nil _ _)
      | cons hd tl => exact ⟨hd, tl, rfl⟩
    rw [List.splitOnP_cons]
    by_cases hc : isSep c = true
    · have ih0 := ih []
      rw [hsp] at ih0
      cases cur <;> simp_all [splitAux]
    · have ih1 := ih (cur ++ [c])
      rw [hsp] at ih1
      simp_all [splitAux]

theorem splitAux_skip_spec (isSep : Char → Bool) (cs cur : List Char)
    (hcur : ∀ c ∈ cur, isSep c = false) :
    ∀ e ∈ splitAux isSep false cs cur, e ≠ "" ∧ ∀ c ∈ e.toList, isSep c = false := by
  induction cs generalizing cur with
  | nil =>
    intro e he
    cases cur with
    | nil => simp [splitAux] at he
    | cons a cur =>
      simp [splitAux] at he
      subst he
      refine ⟨by simp [String.ext_iff], ?_⟩
      simpa using hcur
  | cons c cs ih =>
    intro e he
    by_cases hc : isSep c = true
    · cases cur with
      | nil =>
        simp [splitAux, hc] at he
        exact ih [] (by simp) e he
      | cons a cur =>
        simp [splitAux, hc] at he
        rcases he with he | he
        · subst he
          refine ⟨by simp [String.ext_iff], ?_⟩
          simpa using hcur
        · exact ih [] (by simp) e he
    · simp [splitAux, hc] at he
      refine ih (cur ++ [c]) ?_ e he
      intro x hx
      simp at hx
      rcases hx with hx | hx
      · exact hcur x hx
      · subst hx; simpa using hc

theorem splitAux_map (isSep : Char → Bool) (keep : Bool) (f : Char → Char)
    (hsep : ∀ c, isSep c = true → isSep (f c) = true)
    (hid : ∀ c, isSep c = false → f c = c) (cs cur : List Char) :
    splitAux isSep keep (cs.map f) cur = splitAux isSep keep cs cur := by
  induction cs generalizing cur with
  | nil => rfl
  | cons c cs ih =>
    by_cases hc : isSep c = true
    · simp [splitAux, hc, hsep c hc, ih]
    · have hc2 : isSep c = false := by simpa using hc
      simp [splitAux, hc2, hid c hc2, ih]

theorem splitAux_join (isSep : Char → Bool) (cs cur : List Char) :
    (splitAux isSep false cs cur).flatMap String.toList
      = cur ++ cs.filter (fun c => !isSep c) := by
  induction cs generalizing cur with
  | nil => cases cur <;> simp [splitAux]
  | cons c cs ih =>
    by_cases hc : isSep c = true
    · cases cur <;> simp [splitAux, hc, ih]
    · simp [splitAux, hc, ih]

theorem whitelist_example :
    qSplit isWhitelistDelimiter false "10.0.0.0/8,192.168.0.0/16\n172.16.0.0/12"
      = ["10.0.0.0/8", "192.168.0.0/16", "172.16.0.0/12"] := by
  decide

/-- C10: for a patch that carries the string `s` as
`bypass_auth_subnet_whitelist`, the entry list handed to the whitelist setter
is the sequence of maximal non-empty runs of `s` without newline or comma, in
order: no entry is empty, no entry contains a delimiter, the entries
concatenated are the non-delimiter characters of `s` in order, and the list is
the same for any text obtained from `s` by replacing delimiters by delimiters. -/
theorem C10_whitelist_entries (env : Env) (m : QVariantMap) (w : World) (s : String)
    (h : m.find "bypass_auth_subnet_whitelist" = some (QVariant.string s)) :
    (setPreferencesAction env m w).store.webUiAuthSubnetWhitelist
      = (maximalRuns isWhitelistDelimiter s.toList).map String.mk ∧
    (∀ e ∈ (setPreferencesAction env m w).store.webUiAuthSubnetWhitelist,
      e ≠ "" ∧ ∀ c ∈ e.toList, c ≠ '\n' ∧ c ≠ ',') ∧
    ((setPreferencesAction env m w).store.webUiAuthSubnetWhitelist.flatMap String.toList
      = s.toList.filter (fun c => !isWhitelistDelimiter c)) ∧
    (∀ (f : Char → Char) (m2 : QVariantMap) (w2 : World),
      (∀ c, isWhitelistDelimiter c = true → isWhitelistDelimiter (f c) = true) →
      (∀ c, isWhitelistDelimiter c = false → f c = c) →
      m2.find "bypass_auth_subnet_whitelist" = some (QVariant.string (String.mk (s.toList.map f))) →
      (setPreferencesAction env m2 w2).store.webUiAuthSubnetWhitelist
        = (setPreferencesAction env m w).store.webUiAuthSubnetWhitelist) := by
  have hrun : (setPreferencesAction env m w).store.webUiAuthSubnetWhitelist
      = splitAux isWhitelistDelimiter false s.toList [] := by
    rw [whitelist_run]
    simp [whitelistWrite, h, QVariant.toQString, qSplit]
  refine ⟨?_, ?_, ?_, ?_⟩
  · obtain ⟨hd, tl, hsp⟩ : ∃ hd tl, s.toList.splitOnP isWhitelistDelimiter = hd :: tl := by
      cases h2 : s.toList.splitOnP isWhitelistDelimiter with
      | nil => exact absurd h2 (List.splitOnP_ne_nil _ _)
      | cons hd tl => exact ⟨hd, tl, rfl⟩
    rw [hrun, splitAux_skip_eq, maximalRuns, hsp]
    simp
  · intro e he
    rw [hrun] at he
    have := splitAux_skip_spec isWhitelistDelimiter s.toList [] (by simp) e he
    refine ⟨this.1, fun c hc => ?_⟩
    have h2 := this.2 c hc
    simpa [isWhitelistDelimiter] using h2
  · rw [hrun, splitAux_join]
    simp
  · intro f m2 w2 hsep hid h2
    rw [hrun, whitelist_run]
    simp only [whitelistWrite, h2, QVariant.toQString, qSplit]
    exact splitAux_map isWhitelistDelimiter false f hsep hid s.toList []

/-- C10 at the text "10.0.0.0/8,192.168.0.0/16<newline>172.16.0.0/12": exactly
three entries, in order, which are the maximal runs of the text. -/
theorem C10_whitelist_entries_witness :
    (setPreferencesAction sampleEnv
        [("bypass_auth_subnet_whitelist",
          QVariant.string "10.0.0.0/8,192.168.0.0/16\n172.16.0.0/12")]
        sampleWorld).store.webUiAuthSubnetWhitelist
      = ["10.0.0.0/8", "192.168.0.0/16", "172.16.0.0/12"] ∧
    (setPreferencesAction sampleEnv
        [("bypass_auth_subnet_whitelist",
          QVariant.string "10.0.0.0/8,192.168.0.0/16\n172.16.0.0/12")]
        sampleWorld).store.webUiAuthSubnetWhitelist
      = (maximalRuns isWhitelistDelimiter
          "10.0.0.0/8,192.168.0.0/16\n172.16.0.0/12".toList).map String.mk := by
  refine ⟨?_, (C10_whitelist_entries sampleEnv _ sampleWorld
    "10.0.0.0/8,192.168.0.0/16\n172.16.0.0/12" (by simp [QVariantMap.find, List.lookup])).1⟩
  rw [whitelist_run]
  simp only [whitelistWrite, QVariantMap.find, List.lookup, QVariant.toQString]
  exact whitelist_example

/-! ## Watched-folder reconciliation (C7, C8, C9) -/

theorem QVariantHash.contains_insert (h : QVariantHash) (k : String) (v : QVariant) (f : String) :
    QVariantHash.contains (QVariantHash.insert h k v) f = true ↔
      (QVariantHash.contains h f = true ∨ k = f) := by
  induction h with
  | nil => simp [QVariantHash.insert, QVariantHash.contains]
  | cons e h ih =>
    simp only [QVariantHash.insert]
    split
    · rename_i he
      have he2 : e.1 = k := by simpa using he
      simp only [QVariantHash.contains, List.any_cons, Bool.or_eq_true, beq_iff_eq] at ih ⊢
      rw [he2]
      tauto
    · simp only [QVariantHash.contains, List.any_cons, Bool.or_eq_true, beq_iff_eq] at ih ⊢
      rw [ih]
      tauto

theorem QVariantHash.mem_keys_iff (h : QVariantHash) (f : String) :
    f ∈ QVariantHash.keys h ↔ QVariantHash.contains h f = true := by
  simp [QVariantHash.keys, QVariantHash.contains]

theorem scanDirsLoop_calls (env : Env) (old : QVariantHash) (l : QVariantMap)
    (acc : QVariantHash × List RegistryCall) :
    (l.foldl (scanDirsLoopBody env old) acc).2 = acc.2 ++ l.map (folderCall env old) := by
  induction l generalizing acc with
  | nil => simp
  | cons e l ih =>
    rw [List.foldl_cons, ih]
    simp only [scanDirsLoopBody]
    split <;> simp

theorem scanDirsLoop_contains (env : Env) (old : QVariantHash) (l : QVariantMap)
    (acc : QVariantHash × List RegistryCall) (f : String) :
    QVariantHash.contains (l.foldl (scanDirsLoopBody env old) acc).1 f = true ↔
      (QVariantHash.contains acc.1 f = true ∨
        ∃ e ∈ l, env.fromNativePath e.1 = f ∧ folderStatus env old e = PathStatus.Ok) := by
  induction l generalizing acc with
  | nil => simp
  | cons e l ih =>
    rw [List.foldl_cons, ih]
    simp only [scanDirsLoopBody]
    split
    · rename_i hok
      simp only [QVariantHash.contains_insert, List.mem_cons, exists_eq_or_imp]
      constructor
      · rintro ((h | h) | h)
        · exact Or.inl h
        · exact Or.inr (Or.inl ⟨h, hok⟩)
        · exact Or.inr (Or.inr h)
      · rintro (h | ⟨h, _⟩ | h)
        · exact Or.inl (Or.inl h)
        · exact Or.inl (Or.inr h)
        · exact Or.inr h
    · rename_i hok
      simp only [List.mem_cons, exists_eq_or_imp]
      constructor
      · rintro (h | h)
        · exact Or.inl h
        · exact Or.inr (Or.inr h)
      · rintro (h | ⟨_, h⟩ | h)
        · exact Or.inl h
        · exact absurd h hok
        · exact Or.inr h

theorem reconcile_mem_keys (env : Env) (nativeDirs : QVariantMap) (old : QVariantHash)
    (f : String) :
    f ∈ QVariantHash.keys (reconcileScanDirs env nativeDirs old).1 ↔
      ∃ e ∈ nativeDirs, env.fromNativePath e.1 = f ∧ folderStatus env old e = PathStatus.Ok := by
  rw [QVariantHash.mem_keys_iff]
  simp only [reconcileScanDirs]
  rw [scanDirsLoop_contains]
  simp [QVariantHash.contains]

theorem reconcile_calls (env : Env) (nativeDirs : QVariantMap) (old : QVariantHash) :
    (reconcileScanDirs env nativeDirs old).2 =
      nativeDirs.map (folderCall env old) ++
        (deletedFolders old (reconcileScanDirs env nativeDirs old).1).map RegistryCall.removePath := by
  simp only [reconcileScanDirs]
  rw [scanDirsLoop_calls]
  simp

theorem mem_deletedFolders (old scanDirs : QVariantHash) (f : String) :
    f ∈ deletedFolders old scanDirs ↔
      f ∈ QVariantHash.keys old ∧ f ∉ QVariantHash.keys scanDirs := by
  simp only [deletedFolders, QVariantHash.mem_keys_iff, List.mem_map, List.mem_filter]
  constructor
  · rintro ⟨e, ⟨he, hc⟩, rfl⟩
    refine ⟨?_, by simpa using hc⟩
    simp only [QVariantHash.contains, List.any_eq_true]
    exact ⟨e, he, by simp⟩
  · rintro ⟨h1, h2⟩
    simp only [QVariantHash.contains, List.any_eq_true] at h1
    obtain ⟨e, he, hef⟩ := h1
    have hef2 : e.1 = f := by simpa using hef
    exact ⟨e, ⟨he, by rw [hef2]; simpa using h2⟩, hef2⟩

theorem folderCall_isRemove (env : Env) (old : QVariantHash) (e : String × QVariant) :
    (folderCall env old e).isRemove = false := by
  simp only [folderCall]
  split <;> rfl

theorem newRegistryCalls_eq (env : Env) (m : QVariantMap) (w : World) :
    newRegistryCalls env m w =
      match m.find "scan_dirs" with
      | some v => (reconcileScanDirs env v.toMap w.store.scanDirs).2
      | none => [] := by
  have h := congrArg Prod.snd (scanDirs_run env m w)
  simp only [scanDirsWrite] at h
  unfold newRegistryCalls
  rw [h]
  split <;> simp

theorem scanDirs_run_eq (env : Env) (m : QVariantMap) (w : World) :
    (setPreferencesAction env m w).store.scanDirs =
      match m.find "scan_dirs" with
      | some v => (reconcileScanDirs env v.toMap w.store.scanDirs).1
      | none => w.store.scanDirs := by
  have h := congrArg Prod.fst (scanDirs_run env m w)
  simp only [scanDirsWrite] at h
  rw [h]
  split <;> rfl

theorem applyStep_removePath_irrelevant (env : Env) (r : String → PathStatus) (m : QVariantMap)
    (w : World) (x : Step) :
    applyStep { env with removePath := r } m w x = applyStep env m w x := by
  cases x <;> rfl

theorem toInt_double_one (cv : Conv) : (QVariant.double 1).toInt cv = 1 := by
  simpa using toInt_double_intCast cv 1 (by norm_num) (by norm_num)

theorem toInt_double_zero (cv : Conv) : (QVariant.double 0).toInt cv = 0 := by
  simpa using toInt_double_intCast cv 0 (by norm_num) (by norm_num)

/-- C7, as stated, fails when an update fails: with the current folders `/A`
and `/B`, the desired folders `/A` and `/C` and a registry whose `updatePath`
fails, the run calls `removePath` on `/A` as well as on `/B`, although `/A` is
in the desired mapping. -/
theorem C7_counterexample :
    newRegistryCalls failingUpdateEnv watchedPatch watchedWorld =
      [RegistryCall.updatePath "/A" 1 "Default folder",
       RegistryCall.addPath "/C" 0 "Watch folder",
       RegistryCall.removePath "/A",
       RegistryCall.removePath "/B"] := by
  rw [newRegistryCalls_eq]
  simp [watchedPatch, watchedWorld, sampleStore, failingUpdateEnv, sampleEnv, QVariantMap.find,
    List.lookup, QVariant.toMap, reconcileScanDirs, scanDirsLoopBody, folderStatus, folderCall,
    folderSpec, QVariant.isString, QVariantHash.contains, QVariantHash.insert, deletedFolders,
    toInt_double_one, toInt_double_zero]

/-- C7 (amended): when the patch carries `scan_dirs`, the paths on which the
run calls the registry's remove operation are exactly the paths of the current
mapping that are not accepted, an accepted path being a normalized desired path
whose add or update returned Ok. So a current path absent from the desired
mapping is removed, and a current path with an accepted desired entry is not. -/
theorem C7_removed_paths (env : Env) (m : QVariantMap) (w : World) (v : QVariant)
    (h : m.find "scan_dirs" = some v) :
    (∀ f, RegistryCall.removePath f ∈ newRegistryCalls env m w ↔
      (f ∈ QVariantHash.keys w.store.scanDirs ∧
        ¬ ∃ e ∈ v.toMap, env.fromNativePath e.1 = f ∧
            folderStatus env w.store.scanDirs e = PathStatus.Ok)) ∧
    (∀ f, f ∈ QVariantHash.keys w.store.scanDirs →
      (∀ e ∈ v.toMap, env.fromNativePath e.1 ≠ f) →
      RegistryCall.removePath f ∈ newRegistryCalls env m w) := by
  have key : ∀ f, RegistryCall.removePath f ∈ newRegistryCalls env m w ↔
      (f ∈ QVariantHash.keys w.store.scanDirs ∧
        ¬ ∃ e ∈ v.toMap, env.fromNativePath e.1 = f ∧
            folderStatus env w.store.scanDirs e = PathStatus.Ok) := by
    intro f
    rw [newRegistryCalls_eq, h]
    simp only
    rw [reconcile_calls, List.mem_append]
    have h1 : RegistryCall.removePath f ∉ v.toMap.map (folderCall env w.store.scanDirs) := by
      intro hm
      obtain ⟨e, _, he⟩ := List.mem_map.mp hm
      have := folderCall_isRemove env w.store.scanDirs e
      rw [he] at this
      simp [RegistryCall.isRemove] at this
    have h2 : RegistryCall.removePath f ∈
        (deletedFolders w.store.scanDirs (reconcileScanDirs env v.toMap w.store.scanDirs).1).map
          RegistryCall.removePath ↔
        f ∈ deletedFolders w.store.scanDirs (reconcileScanDirs env v.toMap w.store.scanDirs).1 := by
      simp
    rw [or_iff_right h1, h2, mem_deletedFolders, reconcile_mem_keys]
  refine ⟨key, ?_⟩
  intro f hf hne
  rw [key]
  refine ⟨hf, ?_⟩
  rintro ⟨e, he, hef, _⟩
  exact hne e he hef

/-- C7 (amended) at the current folders `/A`, `/B` and the desired folders
`/A`, `/C`, with a registry that accepts everything: `/B` is removed. -/
theorem C7_removed_paths_witness :
    RegistryCall.removePath "/B" ∈ newRegistryCalls sampleEnv watchedPatch watchedWorld :=
  (C7_removed_paths sampleEnv watchedPatch watchedWorld
      (QVariant.map [("/A", QVariant.double 1), ("/C", QVariant.double 0)]) rfl).2 "/B"
    (by simp [watchedWorld, QVariantHash.keys])
    (by simp [QVariant.toMap, sampleEnv])

theorem setPreferencesAction_removePath_irrelevant (env : Env) (r : String → PathStatus)
    (m : QVariantMap) (w : World) :
    setPreferencesAction { env with removePath := r } m w = setPreferencesAction env m w := by
  unfold setPreferencesAction
  have hf : applyStep { env with removePath := r } m = applyStep env m := by
    funext w x
    exact applyStep_removePath_irrelevant env r m w x
  rw [hf]

/-- C8: when the patch carries `scan_dirs`, the keys of the watched-folder set
persisted by the run are exactly the normalized desired paths whose add or
update returned Ok; a path of the prior set that was not accepted in this run
is not in it; and the whole result of the run is the same whatever the remove
calls return. -/
theorem C8_persisted_set (env : Env) (m : QVariantMap) (w : World) (v : QVariant)
    (h : m.find "scan_dirs" = some v) :
    (∀ f, f ∈ QVariantHash.keys (setPreferencesAction env m w).store.scanDirs ↔
      ∃ e ∈ v.toMap, env.fromNativePath e.1 = f ∧
        folderStatus env w.store.scanDirs e = PathStatus.Ok) ∧
    (∀ f, f ∈ QVariantHash.keys w.store.scanDirs →
      (¬ ∃ e ∈ v.toMap, env.fromNativePath e.1 = f ∧
        folderStatus env w.store.scanDirs e = PathStatus.Ok) →
      f ∉ QVariantHash.keys (setPreferencesAction env m w).store.scanDirs) ∧
    (∀ r : String → PathStatus,
      setPreferencesAction { env with removePath := r } m w = setPreferencesAction env m w) := by
  have key : ∀ f, f ∈ QVariantHash.keys (setPreferencesAction env m w).store.scanDirs ↔
      ∃ e ∈ v.toMap, env.fromNativePath e.1 = f ∧
        folderStatus env w.store.scanDirs e = PathStatus.Ok := by
    intro f
    rw [scanDirs_run_eq, h]
    exact reconcile_mem_keys env v.toMap w.store.scanDirs f
  refine ⟨key, ?_, fun r => setPreferencesAction_removePath_irrelevant env r m w⟩
  intro f _ hna hf
  exact hna ((key f).mp hf)

/-- C8 at the current folders `/A`, `/B` and the desired folders `/A`, `/C`,
with a registry whose update fails: `/B` and `/A` do not survive, `/C` is
persisted. -/
theorem C8_persisted_set_witness :
    "/C" ∈ QVariantHash.keys
      (setPreferencesAction failingUpdateEnv watchedPatch watchedWorld).store.scanDirs ∧
    "/B" ∉ QVariantHash.keys
      (setPreferencesAction failingUpdateEnv watchedPatch watchedWorld).store.scanDirs :=
  ⟨((C8_persisted_set failingUpdateEnv watchedPatch watchedWorld
      (QVariant.map [("/A", QVariant.double 1), ("/C", QVariant.double 0)]) rfl).1 "/C").mpr
      ⟨("/C", QVariant.double 0), by simp [QVariant.toMap], rfl,
        by simp [folderStatus, watchedWorld, QVariantHash.contains, failingUpdateEnv, sampleEnv]⟩,
   (C8_persisted_set failingUpdateEnv watchedPatch watchedWorld
      (QVariant.map [("/A", QVariant.double 1), ("/C", QVariant.double 0)]) rfl).2.1 "/B"
      (by simp [watchedWorld, QVariantHash.keys])
      (by simp [QVariant.toMap, failingUpdateEnv, sampleEnv])⟩

/-- C9: when the patch carries `scan_dirs`, the run issues one add-or-update
call per desired entry, in the order of the entries and before any removal:
`addPath(path, spec)` when the normalized path is absent from the current
mapping, `updatePath(path, spec)` when it is present; and these calls are the
same whatever the registry operations return. -/
theorem C9_one_call_per_entry (env : Env) (m : QVariantMap) (w : World) (v : QVariant)
    (h : m.find "scan_dirs" = some v) :
    newRegistryCalls env m w =
      v.toMap.map (folderCall env w.store.scanDirs) ++
        (deletedFolders w.store.scanDirs (setPreferencesAction env m w).store.scanDirs).map
          RegistryCall.removePath ∧
    (newRegistryCalls env m w).filter (fun c => !c.isRemove)
      = v.toMap.map (folderCall env w.store.scanDirs) ∧
    (∀ e : String × QVariant,
      (QVariantHash.contains w.store.scanDirs (env.fromNativePath e.1) = false →
        folderCall env w.store.scanDirs e = RegistryCall.addPath (env.fromNativePath e.1)
          (folderSpec env e.2).1 (folderSpec env e.2).2) ∧
      (QVariantHash.contains w.store.scanDirs (env.fromNativePath e.1) = true →
        folderCall env w.store.scanDirs e = RegistryCall.updatePath (env.fromNativePath e.1)
          (folderSpec env e.2).1 (folderSpec env e.2).2)) ∧
    (∀ (a u : String → Int → String → PathStatus) (r : String → PathStatus),
      (newRegistryCalls { env with addPath := a, updatePath := u, removePath := r } m w).filter
          (fun c => !c.isRemove)
        = (newRegistryCalls env m w).filter (fun c => !c.isRemove)) := by
  have hall : ∀ env2 : Env, (newRegistryCalls env2 m w).filter (fun c => !c.isRemove)
      = v.toMap.map (folderCall env2 w.store.scanDirs) := by
    intro env2
    rw [newRegistryCalls_eq, h]
    simp only
    rw [reconcile_calls, List.filter_append]
    have h1 : (v.toMap.map (folderCall env2 w.store.scanDirs)).filter (fun c => !c.isRemove)
        = v.toMap.map (folderCall env2 w.store.scanDirs) := by
      rw [List.filter_eq_self]
      intro c hc
      obtain ⟨e, _, rfl⟩ := List.mem_map.mp hc
      simp [folderCall_isRemove]
    have h2 : ((deletedFolders w.store.scanDirs
        (reconcileScanDirs env2 v.toMap w.store.scanDirs).1).map RegistryCall.removePath).filter
          (fun c => !c.isRemove) = [] := by
      rw [List.filter_eq_nil_iff]
      intro c hc
      obtain ⟨f, _, rfl⟩ := List.mem_map.mp hc
      simp [RegistryCall.isRemove]
    rw [h1, h2, List.append_nil]
  refine ⟨?_, hall env, ?_, ?_⟩
  · rw [newRegistryCalls_eq, scanDirs_run_eq, h]
    exact reconcile_calls env v.toMap w.store.scanDirs
  · intro e
    constructor
    · intro hc
      simp [folderCall, hc]
    · intro hc
      simp [folderCall, hc]
  · intro a u r
    rw [hall, hall]
    rfl

/-- C9 at the current folders `/A`, `/B` and the desired folders `/A`, `/C`,
with a registry whose update fails: the failed `updatePath` on `/A` is followed
by the `addPath` on `/C`. -/
theorem C9_one_call_per_entry_witness :
    (newRegistryCalls failingUpdateEnv watchedPatch watchedWorld).filter (fun c => !c.isRemove)
      = [RegistryCall.updatePath "/A" 1 "Default folder",
         RegistryCall.addPath "/C" 0 "Watch folder"] := by
  rw [(C9_one_call_per_entry failingUpdateEnv watchedPatch watchedWorld
      (QVariant.map [("/A", QVariant.double 1), ("/C", QVariant.double 0)]) rfl).2.1]
  simp [watchedWorld, sampleStore, failingUpdateEnv, sampleEnv, QVariant.toMap, folderCall,
    folderSpec, QVariant.isString, QVariantHash.contains, toInt_double_one, toInt_double_zero]

/-! ## The empty patch (C1) -/

/-- On the empty patch every statement but the two unguarded tracker setters
and `pref->apply()` leaves the world as it is. -/
theorem setPreferencesAction_nil (env : Env) (w : World) :
    setPreferencesAction env [] w =
      { w with
        store := { w.store with
          bools := Function.update w.store.bools BoolSetting.addTrackersEnabled false,
          strs := Function.update w.store.strs StrSetting.additionalTrackers "" },
        applyCount := w.applyCount + 1 } := by
  simp [setPreferencesAction, steps, downloadsSteps, notificationSteps, connectionSteps,
    speedSteps, bittorrentSteps, webUiSteps, finalSteps, applyStep, QVariantMap.find,
    QVariantMap.contains, QVariantMap.value, World.withStore, QVariant.toBool,
    QVariant.toQString]

/-- C1 (the code at the failing input): on a store with additional trackers
enabled and a tracker list set, the empty patch disables the additional
trackers and clears the list. -/
theorem C1_empty_patch_resets_trackers :
    sampleWorld.store.bools BoolSetting.addTrackersEnabled = true ∧
    sampleWorld.store.strs StrSetting.additionalTrackers = "udp://tracker.example:6969" ∧
    (setPreferencesAction sampleEnv [] sampleWorld).store.bools BoolSetting.addTrackersEnabled
      = false ∧
    (setPreferencesAction sampleEnv [] sampleWorld).store.strs StrSetting.additionalTrackers
      = "" := by
  refine ⟨rfl, rfl, ?_, ?_⟩
  · rw [setPreferencesAction_nil]; simp
  · rw [setPreferencesAction_nil]; simp

/-! ## Applying a patch twice (C2) -/

theorem proxyConfiguration_applyStep (env : Env) (m : QVariantMap) (w : World) (x : Step) :
    (applyStep env m w x).store.proxyConfiguration =
      if x = Step.proxyConfiguration then proxyWrite env m w.store.proxyConfiguration
      else w.store.proxyConfiguration := by
  cases x <;> simp only [applyStep, World.withStore, proxyWrite] <;> (repeat (split <;> try rfl)) <;> simp_all

theorem bannedIPs_applyStep (env : Env) (m : QVariantMap) (w : World) (x : Step) :
    (applyStep env m w x).store.bannedIPs =
      if x = Step.bannedIPs then bannedIPsWrite env m w.store.bannedIPs
      else w.store.bannedIPs := by
  cases x <;> simp only [applyStep, World.withStore, bannedIPsWrite] <;> (repeat (split <;> try rfl)) <;> simp_all

theorem locale_applyStep (env : Env) (m : QVariantMap) (w : World) (x : Step) :
    (applyStep env m w x).store.locale =
      if x = Step.locale then localeWrite env m w.store.locale
      else w.store.locale := by
  cases x <;> simp only [applyStep, World.withStore, localeWrite] <;> (repeat (split <;> try rfl)) <;> simp_all

theorem webUIPassword_applyStep (env : Env) (m : QVariantMap) (w : World) (x : Step) :
    (applyStep env m w x).store.webUIPassword =
      if x = Step.webUIPassword then passwordWrite env m w.store.webUIPassword
      else w.store.webUIPassword := by
  cases x <;> simp only [applyStep, World.withStore, passwordWrite] <;> (repeat (split <;> try rfl)) <;> simp_all

theorem proxyConfiguration_run (env : Env) (m : QVariantMap) (w : World) :
    (setPreferencesAction env m w).store.proxyConfiguration
      = proxyWrite env m w.store.proxyConfiguration :=
  proj_run_only env m (fun w => w.store.proxyConfiguration) Step.proxyConfiguration
    (proxyWrite env m) (proxyConfiguration_applyStep env m) (by decide) w

theorem bannedIPs_run (env : Env) (m : QVariantMap) (w : World) :
    (setPreferencesAction env m w).store.bannedIPs = bannedIPsWrite env m w.store.bannedIPs :=
  proj_run_only env m (fun w => w.store.bannedIPs) Step.bannedIPs
    (bannedIPsWrite env m) (bannedIPs_applyStep env m) (by decide) w

theorem locale_run (env : Env) (m : QVariantMap) (w : World) :
    (setPreferencesAction env m w).store.locale = localeWrite env m w.store.locale :=
  proj_run_only env m (fun w => w.store.locale) Step.locale
    (localeWrite env m) (locale_applyStep env m) (by decide) w

theorem webUIPassword_run (env : Env) (m : QVariantMap) (w : World) :
    (setPreferencesAction env m w).store.webUIPassword
      = passwordWrite env m w.store.webUIPassword :=
  proj_run_only env m (fun w => w.store.webUIPassword) Step.webUIPassword
    (passwordWrite env m) (webUIPassword_applyStep env m) (by decide) w

theorem KeptOrSet.foldl {α : Type} (env : Env) (m : QVariantMap) (g : World → α)
    (h : ∀ x, KeptOrSet (fun w => applyStep env m w x) g) (l : List Step) :
    KeptOrSet (fun w => l.foldl (applyStep env m) w) g := by
  induction l with
  | nil => exact Or.inl (fun _ => rfl)
  | cons x l ih =>
    rcases ih with ih | ⟨c, ih⟩
    · rcases h x with hx | ⟨c, hx⟩
      · exact Or.inl (fun w => by simp only [List.foldl_cons]; rw [ih, hx])
      · exact Or.inr ⟨c, fun w => by simp only [List.foldl_cons]; rw [ih, hx]⟩
    · exact Or.inr ⟨c, fun w => by simp only [List.foldl_cons]; rw [ih]⟩

theorem KeptOrSet.idem {α : Type} {F : World → World} {g : World → α} (h : KeptOrSet F g)
    (w : World) : g (F (F w)) = g (F w) := by
  rcases h with h | ⟨c, h⟩
  · rw [h]
  · rw [h, h]

theorem keptOrSet_bools (env : Env) (m : QVariantMap) (f : BoolSetting) (x : Step) :
    KeptOrSet (fun w => applyStep env m w x) (fun w => w.store.bools f) := by
  cases x with
  | bool key f2 negate =>
    cases hfind : m.find key with
    | none => exact Or.inl (fun w => by simp [applyStep, hfind])
    | some v =>
      by_cases hf : f2 = f
      · exact Or.inr ⟨_, fun w => by simp [applyStep, hfind, World.withStore, hf]; rfl⟩
      · exact Or.inl (fun w => by
          simp [applyStep, hfind, World.withStore, Function.update_noteq (Ne.symm hf)])
  | addTrackers =>
    by_cases hf : f = BoolSetting.addTrackersEnabled
    · exact Or.inr ⟨_, fun w => by simp [applyStep, World.withStore, hf]; rfl⟩
    · exact Or.inl (fun w => by simp [applyStep, World.withStore, Function.update_noteq hf])
  | _ =>
    refine Or.inl (fun w => ?_)
    simp only [applyStep, World.withStore]
    repeat (split <;> try rfl)

theorem keptOrSet_ints (env : Env) (m : QVariantMap) (f : IntSetting) (x : Step) :
    KeptOrSet (fun w => applyStep env m w x) (fun w => w.store.ints f) := by
  cases x with
  | int key f2 =>
    cases hfind : m.find key with
    | none => exact Or.inl (fun w => by simp [applyStep, hfind])
    | some v =>
      by_cases hf : f2 = f
      · exact Or.inr ⟨_, fun w => by simp [applyStep, hfind, World.withStore, hf]; rfl⟩
      · exact Or.inl (fun w => by
          simp [applyStep, hfind, World.withStore, Function.update_noteq (Ne.symm hf)])
  | uint key f2 =>
    cases hfind : m.find key with
    | none => exact Or.inl (fun w => by simp [applyStep, hfind])
    | some v =>
      by_cases hf : f2 = f
      · exact Or.inr ⟨_, fun w => by simp [applyStep, hfind, World.withStore, hf]; rfl⟩
      · exact Or.inl (fun w => by
          simp [applyStep, hfind, World.withStore, Function.update_noteq (Ne.symm hf)])
  | _ =>
    refine Or.inl (fun w => ?_)
    simp only [applyStep, World.withStore]
    repeat (split <;> try rfl)

theorem keptOrSet_strs (env : Env) (m : QVariantMap) (f : StrSetting) (x : Step) :
    KeptOrSet (fun w => applyStep env m w x) (fun w => w.store.strs f) := by
  cases x with
  | str key f2 =>
    cases hfind : m.find key with
    | none => exact Or.inl (fun w => by simp [applyStep, hfind])
    | some v =>
      by_cases hf : f2 = f
      · exact Or.inr ⟨_, fun w => by simp [applyStep, hfind, World.withStore, hf]; rfl⟩
      · exact Or.inl (fun w => by
          simp [applyStep, hfind, World.withStore, Function.update_noteq (Ne.symm hf)])
  | addTrackers =>
    by_cases hf : f = StrSetting.additionalTrackers
    · exact Or.inr ⟨_, fun w => by simp [applyStep, World.withStore, hf]; rfl⟩
    · exact Or.inl (fun w => by simp [applyStep, World.withStore, Function.update_noteq hf])
  | _ =>
    refine Or.inl (fun w => ?_)
    simp only [applyStep, World.withStore]
    repeat (split <;> try rfl)

theorem ratioWrite_idem (env : Env) (m : QVariantMap) (a : ℚ) :
    ratioWrite env m (ratioWrite env m a) = ratioWrite env m a := by
  simp only [ratioWrite]
  repeat (split <;> try rfl)

theorem seedingWrite_idem (env : Env) (m : QVariantMap) (a : Int) :
    seedingWrite env m (seedingWrite env m a) = seedingWrite env m a := by
  simp only [seedingWrite]
  repeat (split <;> try rfl)

theorem startTimeWrite_idem (env : Env) (m : QVariantMap) (a : QTime) :
    startTimeWrite env m (startTimeWrite env m a) = startTimeWrite env m a := by
  simp only [startTimeWrite]
  repeat (split <;> try rfl)

theorem endTimeWrite_idem (env : Env) (m : QVariantMap) (a : QTime) :
    endTimeWrite env m (endTimeWrite env m a) = endTimeWrite env m a := by
  simp only [endTimeWrite]
  repeat (split <;> try rfl)

theorem whitelistWrite_idem (env : Env) (m : QVariantMap) (a : List String) :
    whitelistWrite env m (whitelistWrite env m a) = whitelistWrite env m a := by
  simp only [whitelistWrite]
  repeat (split <;> try rfl)

theorem bannedIPsWrite_idem (env : Env) (m : QVariantMap) (a : List String) :
    bannedIPsWrite env m (bannedIPsWrite env m a) = bannedIPsWrite env m a := by
  simp only [bannedIPsWrite]
  repeat (split <;> try rfl)

theorem passwordWrite_idem (env : Env) (m : QVariantMap) (a : String) :
    passwordWrite env m (passwordWrite env m a) = passwordWrite env m a := by
  simp only [passwordWrite]
  repeat (split <;> try rfl)

theorem localeWrite_idem (env : Env) (m : QVariantMap) (a : String) :
    localeWrite env m (localeWrite env m a) = localeWrite env m a := by
  simp only [localeWrite]
  cases m.find "locale" with
  | none => rfl
  | some v =>
    simp only
    by_cases h : a = v.toQString env.conv
    · simp [h]
    · simp [h]

theorem proxyWrite_idem (env : Env) (m : QVariantMap) (c : ProxyConfiguration) :
    proxyWrite env m (proxyWrite env m c) = proxyWrite env m c := by
  ext <;> simp only [proxyWrite] <;> (repeat (split <;> try rfl))

theorem folderStatus_ok_iff (env : Env) (old : QVariantHash) (e : String × QVariant)
    (hreg : env.addPath (env.fromNativePath e.1) (folderSpec env e.2).1 (folderSpec env e.2).2
        = PathStatus.Ok ↔
      env.updatePath (env.fromNativePath e.1) (folderSpec env e.2).1 (folderSpec env e.2).2
        = PathStatus.Ok) :
    folderStatus env old e = PathStatus.Ok ↔
      env.addPath (env.fromNativePath e.1) (folderSpec env e.2).1 (folderSpec env e.2).2
        = PathStatus.Ok := by
  simp only [folderStatus]
  split
  · exact Iff.rfl
  · exact hreg.symm

theorem scanDirsLoop_old_irrelevant (env : Env) (old1 old2 : QVariantHash) (l : QVariantMap)
    (hreg : ∀ e ∈ l,
      (env.addPath (env.fromNativePath e.1) (folderSpec env e.2).1 (folderSpec env e.2).2
        = PathStatus.Ok ↔
      env.updatePath (env.fromNativePath e.1) (folderSpec env e.2).1 (folderSpec env e.2).2
        = PathStatus.Ok))
    (acc1 acc2 : QVariantHash × List RegistryCall) (hacc : acc1.1 = acc2.1) :
    (l.foldl (scanDirsLoopBody env old1) acc1).1 = (l.foldl (scanDirsLoopBody env old2) acc2).1 := by
  induction l generalizing acc1 acc2 with
  | nil => exact hacc
  | cons e l ih =>
    simp only [List.foldl_cons]
    apply ih (fun e2 he2 => hreg e2 (List.mem_cons_of_mem _ he2))
    have h1 := folderStatus_ok_iff env old1 e (hreg e (List.mem_cons_self _ _))
    have h2 := folderStatus_ok_iff env old2 e (hreg e (List.mem_cons_self _ _))
    simp only [scanDirsLoopBody]
    by_cases hok : env.addPath (env.fromNativePath e.1) (folderSpec env e.2).1
        (folderSpec env e.2).2 = PathStatus.Ok
    · rw [if_pos (h1.mpr hok), if_pos (h2.mpr hok), hacc]
    · rw [if_neg (fun h => hok (h1.mp h)), if_neg (fun h => hok (h2.mp h))]
      exact hacc

theorem reconcile_old_irrelevant (env : Env) (old1 old2 : QVariantHash) (l : QVariantMap)
    (hreg : ∀ e ∈ l,
      (env.addPath (env.fromNativePath e.1) (folderSpec env e.2).1 (folderSpec env e.2).2
        = PathStatus.Ok ↔
      env.updatePath (env.fromNativePath e.1) (folderSpec env e.2).1 (folderSpec env e.2).2
        = PathStatus.Ok)) :
    (reconcileScanDirs env l old1).1 = (reconcileScanDirs env l old2).1 := by
  simp only [reconcileScanDirs]
  exact scanDirsLoop_old_irrelevant env old1 old2 l hreg _ _ rfl

/-- C2, as stated, fails on the watched folders: with a registry whose
`addPath` succeeds and whose `updatePath` fails (both deterministic), the patch
that asks for `/C` persists `/C` when applied once and the empty set when
applied twice. -/
theorem C2_counterexample :
    QVariantHash.keys
      (setPreferencesAction failingUpdateEnv singleFolderPatch sampleWorld).store.scanDirs
        = ["/C"] ∧
    QVariantHash.keys
      (setPreferencesAction failingUpdateEnv singleFolderPatch
        (setPreferencesAction failingUpdateEnv singleFolderPatch sampleWorld)).store.scanDirs
        = [] := by
  have h1 : (setPreferencesAction failingUpdateEnv singleFolderPatch sampleWorld).store.scanDirs
      = [("/C", QVariant.int 0)] := by
    rw [scanDirs_run_eq]
    simp [singleFolderPatch, sampleWorld, sampleStore, failingUpdateEnv, sampleEnv,
      QVariantMap.find, List.lookup, QVariant.toMap, reconcileScanDirs, scanDirsLoopBody,
      folderStatus, folderCall, folderSpec, QVariant.isString, QVariantHash.contains,
      QVariantHash.insert, toInt_double_zero]
  have h2 : (setPreferencesAction failingUpdateEnv singleFolderPatch
        (setPreferencesAction failingUpdateEnv singleFolderPatch sampleWorld)).store.scanDirs
      = [] := by
    rw [scanDirs_run_eq, h1]
    simp [singleFolderPatch, failingUpdateEnv, sampleEnv,
      QVariantMap.find, List.lookup, QVariant.toMap, reconcileScanDirs, scanDirsLoopBody,
      folderStatus, folderCall, folderSpec, QVariant.isString, QVariantHash.contains,
      QVariantHash.insert, toInt_double_zero]
  rw [h1, h2]
  simp [QVariantHash.keys]

/-- C2 (amended): applying a patch twice in succession leaves the same
configuration store (the persisted watched-folder set and the stored locale
included) as applying it once, provided the registry gives every desired
`scan_dirs` entry the same verdict, Ok or not, whether it is added or updated.
Every setter is an assignment, and the registry, the translation loader and
the password hasher are functions of their arguments. -/
theorem C2_idempotent (env : Env) (m : QVariantMap) (w : World)
    (hreg : ∀ e ∈ (m.value "scan_dirs").toMap,
      (env.addPath (env.fromNativePath e.1) (folderSpec env e.2).1 (folderSpec env e.2).2
        = PathStatus.Ok ↔
      env.updatePath (env.fromNativePath e.1) (folderSpec env e.2).1 (folderSpec env e.2).2
        = PathStatus.Ok)) :
    (setPreferencesAction env m (setPreferencesAction env m w)).store
      = (setPreferencesAction env m w).store := by
  apply Store.ext
  · funext f
    exact (KeptOrSet.foldl env m (fun w => w.store.bools f) (keptOrSet_bools env m f) steps).idem w
  · funext f
    exact (KeptOrSet.foldl env m (fun w => w.store.ints f) (keptOrSet_ints env m f) steps).idem w
  · funext f
    exact (KeptOrSet.foldl env m (fun w => w.store.strs f) (keptOrSet_strs env m f) steps).idem w
  · rw [scanDirs_run_eq env m (setPreferencesAction env m w), scanDirs_run_eq env m w]
    cases hfind : m.find "scan_dirs" with
    | none => rfl
    | some v =>
      simp only
      apply reconcile_old_irrelevant
      simpa [QVariantMap.value, hfind] using hreg
  · rw [proxyConfiguration_run, proxyConfiguration_run, proxyWrite_idem]
  · rw [bannedIPs_run, bannedIPs_run, bannedIPsWrite_idem]
  · rw [schedulerStartTime_run, schedulerStartTime_run, startTimeWrite_idem]
  · rw [schedulerEndTime_run, schedulerEndTime_run, endTimeWrite_idem]
  · rw [globalMaxRatio_run, globalMaxRatio_run, ratioWrite_idem]
  · rw [globalMaxSeedingMinutes_run, globalMaxSeedingMinutes_run, seedingWrite_idem]
  · rw [locale_run, locale_run, localeWrite_idem]
  · rw [webUIPassword_run, webUIPassword_run, passwordWrite_idem]
  · rw [whitelist_run, whitelist_run, whitelistWrite_idem]


/-- C2 (amended) at the current folders `/A`, `/B`, the desired folders `/A`,
`/C` and a registry that accepts every add and every update. -/
theorem C2_idempotent_witness :
    (setPreferencesAction sampleEnv watchedPatch
        (setPreferencesAction sampleEnv watchedPatch watchedWorld)).store
      = (setPreferencesAction sampleEnv watchedPatch watchedWorld).store :=
  C2_idempotent sampleEnv watchedPatch watchedWorld (by intro e _; simp [sampleEnv])

/-! ## The locale block (C11) -/

theorem applyStep_congr (env : Env) (m1 m2 : QVariantMap) (w : World) (x : Step)
    (h : ∀ k ∈ x.keys, m1.find k = m2.find k) :
    applyStep env m1 w x = applyStep env m2 w x := by
  cases x <;> simp only [Step.keys, List.mem_cons, List.mem_singleton, forall_eq_or_imp, forall_eq,
    List.not_mem_nil, false_implies, implies_true, and_true] at h <;>
    simp only [applyStep, QVariantMap.contains, QVariantMap.value, h]

theorem QVariantMap.find_without (m : QVariantMap) (key k : String) (hk : k ≠ key) :
    (QVariantMap.without m key).find k = m.find k := by
  induction m with
  | nil => rfl
  | cons e m ih =>
    obtain ⟨a, b⟩ := e
    unfold QVariantMap.without at ih ⊢
    unfold QVariantMap.find at ih ⊢
    by_cases he : a = key
    · subst he
      rw [List.filter_cons_of_neg (by simp), ih]
      have hka : (k == a) = false := by simpa using hk
      simp [List.lookup, hka]
    · rw [List.filter_cons_of_pos (by simpa using he)]
      cases hka : (k == a) <;> simp [List.lookup, hka, ih]

theorem QVariantMap.find_without_self (m : QVariantMap) (key : String) :
    (QVariantMap.without m key).find key = none := by
  induction m with
  | nil => rfl
  | cons e m ih =>
    obtain ⟨a, b⟩ := e
    unfold QVariantMap.without at ih ⊢
    unfold QVariantMap.find at ih ⊢
    by_cases he : a = key
    · subst he
      rw [List.filter_cons_of_neg (by simp), ih]
    · rw [List.filter_cons_of_pos (by simpa using he)]
      have hka : (key == a) = false := by simpa using fun h => he h.symm
      simp only [List.lookup, hka, ih]

theorem steps_keys_locale :
    ∀ x ∈ steps, x ≠ Step.locale → "locale" ∉ x.keys := by
  decide

theorem localeBlock_applyStep (env : Env) (m : QVariantMap) (w : World) (x : Step) :
    ((applyStep env m w x).store.locale, (applyStep env m w x).translators) =
      if x = Step.locale then localeBlockWrite env m (w.store.locale, w.translators)
      else (w.store.locale, w.translators) := by
  cases x <;> simp only [applyStep, World.withStore, localeBlockWrite] <;> (repeat (split <;> try rfl)) <;> simp_all

theorem localeBlock_run (env : Env) (m : QVariantMap) (w : World) :
    ((setPreferencesAction env m w).store.locale, (setPreferencesAction env m w).translators)
      = localeBlockWrite env m (w.store.locale, w.translators) :=
  proj_run_only env m (fun w => (w.store.locale, w.translators)) Step.locale
    (localeBlockWrite env m) (localeBlock_applyStep env m) (by decide) w

theorem foldl_simulation (F : World → World) (s1 s2 : World → Step → World) (l : List Step)
    (h : ∀ x ∈ l, ∀ w1 w2, F w1 = F w2 → F (s1 w1 x) = F (s2 w2 x))
    (w1 w2 : World) (hw : F w1 = F w2) :
    F (l.foldl s1 w1) = F (l.foldl s2 w2) := by
  induction l generalizing w1 w2 with
  | nil => exact hw
  | cons x l ih =>
    simp only [List.foldl_cons]
    exact ih (fun y hy => h y (List.mem_cons_of_mem _ hy)) _ _
      (h x (List.mem_cons_self _ _) w1 w2 hw)

theorem forgetLocale_applyStep (env : Env) (m : QVariantMap) (w : World) (x : Step) :
    (applyStep env m w x).forgetLocale = (applyStep env m w.forgetLocale x).forgetLocale := by
  cases x <;> simp only [applyStep, World.withStore, World.forgetLocale] <;>
    (repeat (split <;> try rfl))

theorem forgetLocale_applyStep_locale (env : Env) (m : QVariantMap) (w : World) :
    (applyStep env m w Step.locale).forgetLocale = w.forgetLocale := by
  simp only [applyStep, World.forgetLocale]
  repeat (split <;> try rfl)

theorem forgetTranslators_applyStep (env : Env) (m : QVariantMap) (w : World) (x : Step) :
    (applyStep env m w x).forgetTranslators
      = (applyStep env m w.forgetTranslators x).forgetTranslators := by
  cases x <;> simp only [applyStep, World.withStore, World.forgetTranslators] <;>
    (repeat (split <;> try rfl))

theorem forgetTranslators_applyStep_load (env : Env) (load : String → Bool) (m : QVariantMap)
    (w : World) (x : Step) :
    (applyStep { env with translatorLoad := load } m w x).forgetTranslators
      = (applyStep env m w x).forgetTranslators := by
  cases x <;> simp only [applyStep, World.withStore, World.forgetTranslators] <;>
    (repeat (split <;> try rfl))

theorem forgetTranslators_run_load (env : Env) (load : String → Bool) (m : QVariantMap)
    (w : World) :
    (setPreferencesAction { env with translatorLoad := load } m w).forgetTranslators
      = (setPreferencesAction env m w).forgetTranslators := by
  unfold setPreferencesAction
  apply foldl_simulation World.forgetTranslators
  · intro x _ w1 w2 hw
    rw [forgetTranslators_applyStep_load, forgetTranslators_applyStep env m w1, hw,
      ← forgetTranslators_applyStep env m w2]
  · rfl

theorem forgetLocale_run_without (env : Env) (m : QVariantMap) (w : World) :
    (setPreferencesAction env m w).forgetLocale
      = (setPreferencesAction env (QVariantMap.without m "locale") w).forgetLocale := by
  unfold setPreferencesAction
  apply foldl_simulation World.forgetLocale
  · intro x hx w1 w2 hw
    by_cases hxl : x = Step.locale
    · subst hxl
      rw [forgetLocale_applyStep_locale, forgetLocale_applyStep_locale, hw]
    · rw [forgetLocale_applyStep env m w1, hw,
        applyStep_congr env m (QVariantMap.without m "locale") w2.forgetLocale x
          (fun k hk => (QVariantMap.find_without m "locale" k
            (fun hkl => steps_keys_locale x hx hxl (hkl ▸ hk))).symm),
        ← forgetLocale_applyStep]
  · rfl

/-- C11: for a patch that carries `locale = L`: when `L` is the stored locale
the locale block leaves the world as it is (no translator installed, locale
not written); otherwise the stored locale becomes `L` and one translator for
`L` is installed, loaded or, when the load fails, empty; the store, the
registry calls and the commit are the same whatever the loader returns; and
everything but the locale and the translators is as for the patch without the
`locale` key. -/
theorem C11_locale_switch (env : Env) (m : QVariantMap) (w : World) (L : String)
    (h : m.find "locale" = some (QVariant.string L)) :
    (w.store.locale = L →
      (setPreferencesAction env m w).translators = w.translators ∧
      (setPreferencesAction env m w).store.locale = w.store.locale) ∧
    (∀ w2 : World, w2.store.locale = L → applyStep env m w2 Step.locale = w2) ∧
    (w.store.locale ≠ L →
      (setPreferencesAction env m w).store.locale = L ∧
      (setPreferencesAction env m w).translators
        = w.translators ++ [⟨L, env.translatorLoad L⟩] ∧
      (env.translatorLoad L = false →
        (setPreferencesAction env m w).translators = w.translators ++ [⟨L, false⟩])) ∧
    (∀ load : String → Bool,
      (setPreferencesAction { env with translatorLoad := load } m w).store
        = (setPreferencesAction env m w).store ∧
      (setPreferencesAction { env with translatorLoad := load } m w).registryCalls
        = (setPreferencesAction env m w).registryCalls ∧
      (setPreferencesAction { env with translatorLoad := load } m w).applyCount
        = (setPreferencesAction env m w).applyCount) ∧
    (setPreferencesAction env m w).forgetLocale
      = (setPreferencesAction env (QVariantMap.without m "locale") w).forgetLocale := by
  have hrun := localeBlock_run env m w
  simp only [localeBlockWrite, h, QVariant.toQString] at hrun
  refine ⟨?_, ?_, ?_, ?_, forgetLocale_run_without env m w⟩
  · intro heq
    rw [if_neg (by simp [heq])] at hrun
    exact ⟨congrArg Prod.snd hrun, congrArg Prod.fst hrun⟩
  · intro w2 heq
    simp [applyStep, h, QVariant.toQString, heq]
  · intro hne
    rw [if_pos (by simpa using hne)] at hrun
    have hsnd : (setPreferencesAction env m w).translators
        = w.translators ++ [⟨L, env.translatorLoad L⟩] := congrArg Prod.snd hrun
    refine ⟨congrArg Prod.fst hrun, hsnd, fun hl => ?_⟩
    rw [hsnd, hl]
  · intro load
    have hf := forgetTranslators_run_load env load m w
    have h1 := congrArg World.store hf
    have h2 := congrArg World.registryCalls hf
    have h3 := congrArg World.applyCount hf
    exact ⟨h1, h2, h3⟩

/-- C11 at the stored locale "en", the patch `locale = "xx"` and a loader that
finds no translation: the stored locale becomes "xx" and the one installed
translator is empty. -/
theorem C11_locale_switch_witness :
    (setPreferencesAction failingLoadEnv [("locale", QVariant.string "xx")]
        sampleWorld).store.locale = "xx" ∧
    (setPreferencesAction failingLoadEnv [("locale", QVariant.string "xx")]
        sampleWorld).translators = [⟨"xx", false⟩] :=
  ⟨((C11_locale_switch failingLoadEnv [("locale", QVariant.string "xx")] sampleWorld "xx"
      rfl).2.2.1 (by decide)).1,
   ((C11_locale_switch failingLoadEnv [("locale", QVariant.string "xx")] sampleWorld "xx"
      rfl).2.2.1 (by decide)).2.2 rfl⟩

/-! ## Statements that write a slot once -/

theorem foldl_frame {α β : Type} (env : Env) (m : QVariantMap) (tgt : Step → Option β)
    (g : World → β → α)
    (hframe : ∀ w x b, tgt x ≠ some b → g (applyStep env m w x) b = g w b)
    (l : List Step) (b : β) (hl : ∀ x ∈ l, tgt x ≠ some b) (w : World) :
    g (l.foldl (applyStep env m) w) b = g w b := by
  induction l generalizing w with
  | nil => rfl
  | cons x l ih =>
    rw [List.foldl_cons, ih (fun y hy => hl y (List.mem_cons_of_mem _ hy)),
      hframe w x b (hl x (List.mem_cons_self _ _))]

theorem foldl_written_once {α β : Type} (env : Env) (m : QVariantMap) (tgt : Step → Option β)
    (g : World → β → α)
    (hframe : ∀ w x b, tgt x ≠ some b → g (applyStep env m w x) b = g w b)
    (l : List Step) (hnd : (l.filterMap tgt).Nodup) (x0 : Step) (hx0 : x0 ∈ l) (b : β)
    (htgt : tgt x0 = some b) (c : α) (hset : ∀ w, g (applyStep env m w x0) b = c) (w : World) :
    g (l.foldl (applyStep env m) w) b = c := by
  induction l generalizing w with
  | nil => cases hx0
  | cons x l ih =>
    rw [List.foldl_cons]
    rcases List.mem_cons.mp hx0 with hx | hx
    · subst hx
      rw [List.filterMap_cons, htgt] at hnd
      have hnot : ∀ y ∈ l, tgt y ≠ some b := by
        intro y hy hty
        exact (List.nodup_cons.mp hnd).1 (List.mem_filterMap.mpr ⟨y, hy, hty⟩)
      rw [foldl_frame env m tgt g hframe l b hnot, hset]
    · apply ih _ hx
      rw [List.filterMap_cons] at hnd
      cases htx : tgt x with
      | none => simpa [htx] using hnd
      | some b2 =>
        rw [htx] at hnd
        exact (List.nodup_cons.mp hnd).2

theorem bools_frame (env : Env) (m : QVariantMap) (w : World) (x : Step) (f : BoolSetting)
    (h : x.boolTarget ≠ some f) : (applyStep env m w x).store.bools f = w.store.bools f := by
  cases x <;> simp only [Step.boolTarget, ne_eq, Option.some.injEq, not_false_eq_true] at h <;>
    simp only [applyStep, World.withStore] <;> (repeat (split <;> try rfl)) <;>
    simp [Function.update_noteq (Ne.symm h)]

theorem ints_frame (env : Env) (m : QVariantMap) (w : World) (x : Step) (f : IntSetting)
    (h : x.intTarget ≠ some f) : (applyStep env m w x).store.ints f = w.store.ints f := by
  cases x <;> simp only [Step.intTarget, ne_eq, Option.some.injEq, not_false_eq_true] at h <;>
    simp only [applyStep, World.withStore] <;> (repeat (split <;> try rfl)) <;>
    simp [Function.update_noteq (Ne.symm h)]

theorem strs_frame (env : Env) (m : QVariantMap) (w : World) (x : Step) (f : StrSetting)
    (h : x.strTarget ≠ some f) : (applyStep env m w x).store.strs f = w.store.strs f := by
  cases x <;> simp only [Step.strTarget, ne_eq, Option.some.injEq, not_false_eq_true] at h <;>
    simp only [applyStep, World.withStore] <;> (repeat (split <;> try rfl)) <;>
    simp [Function.update_noteq (Ne.symm h)]

theorem steps_boolTarget_nodup : (steps.filterMap Step.boolTarget).Nodup := by decide

theorem steps_intTarget_nodup : (steps.filterMap Step.intTarget).Nodup := by decide

theorem steps_strTarget_nodup : (steps.filterMap Step.strTarget).Nodup := by decide

theorem run_bool (env : Env) (m : QVariantMap) (w : World) (key : String) (f : BoolSetting)
    (negate : Bool) (v : QVariant) (hx : Step.bool key f negate ∈ steps)
    (h : m.find key = some v) :
    (setPreferencesAction env m w).store.bools f = (if negate then !v.toBool else v.toBool) :=
  foldl_written_once env m Step.boolTarget (fun w f => w.store.bools f) (bools_frame env m)
    steps steps_boolTarget_nodup (Step.bool key f negate) hx f rfl _
    (fun w => by simp [applyStep, h, World.withStore]) w

theorem run_int (env : Env) (m : QVariantMap) (w : World) (key : String) (f : IntSetting)
    (v : QVariant) (hx : Step.int key f ∈ steps) (h : m.find key = some v) :
    (setPreferencesAction env m w).store.ints f = v.toInt env.conv :=
  foldl_written_once env m Step.intTarget (fun w f => w.store.ints f) (ints_frame env m)
    steps steps_intTarget_nodup (Step.int key f) hx f rfl _
    (fun w => by simp [applyStep, h, World.withStore]) w

theorem run_uint (env : Env) (m : QVariantMap) (w : World) (key : String) (f : IntSetting)
    (v : QVariant) (hx : Step.uint key f ∈ steps) (h : m.find key = some v) :
    (setPreferencesAction env m w).store.ints f = v.toUInt env.conv :=
  foldl_written_once env m Step.intTarget (fun w f => w.store.ints f) (ints_frame env m)
    steps steps_intTarget_nodup (Step.uint key f) hx f rfl _
    (fun w => by simp [applyStep, h, World.withStore]) w

theorem run_str (env : Env) (m : QVariantMap) (w : World) (key : String) (f : StrSetting)
    (v : QVariant) (hx : Step.str key f ∈ steps) (h : m.find key = some v) :
    (setPreferencesAction env m w).store.strs f = v.toQString env.conv :=
  foldl_written_once env m Step.strTarget (fun w f => w.store.strs f) (strs_frame env m)
    steps steps_strTarget_nodup (Step.str key f) hx f rfl _
    (fun w => by simp [applyStep, h, World.withStore]) w

/-! ## Malformed requests (C13) -/

/-- C13, as stated, fails: a request whose `json` parameter is not JSON is not
rejected; the action runs on the empty map, calls `pref->apply()` once and
returns a world. -/
theorem C13_counterexample :
    setPreferencesActionOnRequest sampleEnv sampleHttp [("json", "not json")] sampleWorld
      = some (setPreferencesAction sampleEnv [] sampleWorld) ∧
    (setPreferencesAction sampleEnv [] sampleWorld).applyCount = 1 := by
  constructor
  · simp [setPreferencesActionOnRequest, sampleHttp, jsonParam, List.lookup, QVariant.toMap]
  · rw [setPreferencesAction_nil]
    rfl

/-- C13 (amended): a request that has its `json` parameter, with a text that is
not a well-formed JSON object, raises no parse error: the text yields the
empty map and the request is processed exactly as the empty patch is. -/
theorem C13_malformed_is_empty_patch (env : Env) (http : Http) (params : List (String × String))
    (w : World) (hc : http.checkParams params ["json"] = true)
    (hbad : ∀ o, http.fromJson (jsonParam params) ≠ QVariant.map o) :
    setPreferencesActionOnRequest env http params w = some (setPreferencesAction env [] w) := by
  have hmap : (http.fromJson (jsonParam params)).toMap = [] := by
    cases hv : http.fromJson (jsonParam params) with
    | map o => exact absurd hv (hbad o)
    | _ => rfl
  simp [setPreferencesActionOnRequest, hc, hmap]

/-- C13 (amended) at the request `json = "not json"`. -/
theorem C13_malformed_is_empty_patch_witness :
    setPreferencesActionOnRequest sampleEnv sampleHttp [("json", "not json")] sampleWorld
      = some (setPreferencesAction sampleEnv [] sampleWorld) :=
  C13_malformed_is_empty_patch sampleEnv sampleHttp [("json", "not json")] sampleWorld
    (by simp [sampleHttp, List.lookup])
    (by intro o; simp [sampleHttp, jsonParam, List.lookup])

/-! ## Values of the wrong type (C14) -/

theorem steps_mem_listen_port : Step.int "listen_port" IntSetting.port ∈ steps := by decide

theorem steps_mem_dht : Step.bool "dht" BoolSetting.dhtEnabled false ∈ steps := by decide

theorem steps_mem_max_connec : Step.int "max_connec" IntSetting.maxConnections ∈ steps := by
  decide

/-- C14, as stated, fails: on a store with the listening port 6881 and DHT
enabled, the patch that gives `listen_port` the text "abc", `dht` an object and
`max_connec` the number 100 is applied: the port becomes 0, DHT is disabled and
the connection limit becomes 100. -/
theorem C14_counterexample :
    configuredWorld.store.ints IntSetting.port = 6881 ∧
    configuredWorld.store.bools BoolSetting.dhtEnabled = true ∧
    configuredWorld.store.ints IntSetting.maxConnections = 0 ∧
    (setPreferencesAction sampleEnv mistypedPatch configuredWorld).store.ints IntSetting.port
      = 0 ∧
    (setPreferencesAction sampleEnv mistypedPatch configuredWorld).store.bools
      BoolSetting.dhtEnabled = false ∧
    (setPreferencesAction sampleEnv mistypedPatch configuredWorld).store.ints
      IntSetting.maxConnections = 100 := by
  refine ⟨rfl, rfl, rfl, ?_, ?_, ?_⟩
  · rw [run_int sampleEnv mistypedPatch configuredWorld "listen_port" IntSetting.port
      (QVariant.string "abc") steps_mem_listen_port rfl]
    simp [QVariant.toInt, QVariant.toLongLong, sampleEnv, sampleConv, toInt32]
  · rw [run_bool sampleEnv mistypedPatch configuredWorld "dht" BoolSetting.dhtEnabled false
      (QVariant.map []) steps_mem_dht rfl]
    rfl
  · rw [run_int sampleEnv mistypedPatch configuredWorld "max_connec" IntSetting.maxConnections
      (QVariant.double 100) steps_mem_max_connec rfl]
    simpa using toInt_double_intCast sampleEnv.conv 100 (by norm_num) (by norm_num)

theorem steps_mem_addTrackers : Step.addTrackers ∈ steps := by decide

set_option maxHeartbeats 1000000

/-- C14 (amended): a patch in which a present key carries a value that is not
coercible to its field's declared type is not rejected. Every present key of
the catalogue is read through its `QVariant` coercion and the result is handed
to the setter of its statement, whatever the type of its value: the keys of
the single-key statements (`toBool`, `toInt`, `toUInt`, `toString`), and the
keys of the grouped statements, that is the five `proxy_*` keys, `banned_IPs`,
the two schedule pairs, the ratio and seeding-time pairs (`toBool` of the
enabled key, `toReal` / `toInt` of the magnitude), `add_trackers_enabled` and
`add_trackers`, `locale`, `web_ui_password`, `bypass_auth_subnet_whitelist`,
and `scan_dirs` (`toMap`, then `toString` or `toInt` of each entry). The
coercion gives the default of the type (false, 0, the empty text, the empty
map) for a value it cannot convert, so `listen_port` given a non-numeric text
stores the port 0 and `dht` given an object stores DHT disabled; and a request
whose text parses to the patch returns the world of the run. -/
theorem C14_mistyped_value_is_coerced (env : Env) (m : QVariantMap) (w : World) :
    (∀ (key : String) (f : BoolSetting) (negate : Bool) (v : QVariant),
      Step.bool key f negate ∈ steps → m.find key = some v →
      (setPreferencesAction env m w).store.bools f = (if negate then !v.toBool else v.toBool)) ∧
    (∀ (key : String) (f : IntSetting) (v : QVariant),
      Step.int key f ∈ steps → m.find key = some v →
      (setPreferencesAction env m w).store.ints f = v.toInt env.conv) ∧
    (∀ (key : String) (f : IntSetting) (v : QVariant),
      Step.uint key f ∈ steps → m.find key = some v →
      (setPreferencesAction env m w).store.ints f = v.toUInt env.conv) ∧
    (∀ (key : String) (f : StrSetting) (v : QVariant),
      Step.str key f ∈ steps → m.find key = some v →
      (setPreferencesAction env m w).store.strs f = v.toQString env.conv) ∧
    (∀ s : String, env.conv.stringToLongLong s = none →
      m.find "listen_port" = some (QVariant.string s) →
      (setPreferencesAction env m w).store.ints IntSetting.port = 0) ∧
    (∀ o : List (String × QVariant), m.find "dht" = some (QVariant.map o) →
      (setPreferencesAction env m w).store.bools BoolSetting.dhtEnabled = false) ∧
    (∀ o : List (String × QVariant),
      (QVariant.map o).toBool = false ∧ (QVariant.map o).toInt env.conv = 0 ∧
      (QVariant.map o).toUInt env.conv = 0 ∧ (QVariant.map o).toQString env.conv = "") ∧
    (∀ (http : Http) (params : List (String × String)),
      http.checkParams params ["json"] = true →
      http.fromJson (jsonParam params) = QVariant.map m →
      setPreferencesActionOnRequest env http params w = some (setPreferencesAction env m w)) ∧
    (∀ v : QVariant, m.find "proxy_type" = some v →
      (setPreferencesAction env m w).store.proxyConfiguration.type = v.toInt env.conv) ∧
    (∀ v : QVariant, m.find "proxy_ip" = some v →
      (setPreferencesAction env m w).store.proxyConfiguration.ip = v.toQString env.conv) ∧
    (∀ v : QVariant, m.find "proxy_port" = some v →
      (setPreferencesAction env m w).store.proxyConfiguration.port = v.toUInt env.conv) ∧
    (∀ v : QVariant, m.find "proxy_username" = some v →
      (setPreferencesAction env m w).store.proxyConfiguration.username
        = v.toQString env.conv) ∧
    (∀ v : QVariant, m.find "proxy_password" = some v →
      (setPreferencesAction env m w).store.proxyConfiguration.password
        = v.toQString env.conv) ∧
    (∀ v : QVariant, m.find "banned_IPs" = some v →
      (setPreferencesAction env m w).store.bannedIPs
        = qSplit (fun c => c == '\n') true (v.toQString env.conv)) ∧
    (∀ vh vm : QVariant, m.find "schedule_from_hour" = some vh →
      m.find "schedule_from_min" = some vm →
      (setPreferencesAction env m w).store.schedulerStartTime
        = QTime.ofHM (vh.toInt env.conv) (vm.toInt env.conv)) ∧
    (∀ vh vm : QVariant, m.find "schedule_to_hour" = some vh →
      m.find "schedule_to_min" = some vm →
      (setPreferencesAction env m w).store.schedulerEndTime
        = QTime.ofHM (vh.toInt env.conv) (vm.toInt env.conv)) ∧
    (∀ ve : QVariant, m.find "max_ratio_enabled" = some ve →
      (ve.toBool = false → (setPreferencesAction env m w).store.globalMaxRatio = -1) ∧
      (ve.toBool = true → ∀ vt : QVariant, m.find "max_ratio" = some vt →
        (setPreferencesAction env m w).store.globalMaxRatio = vt.toReal env.conv)) ∧
    (∀ ve : QVariant, m.find "max_seeding_time_enabled" = some ve →
      (ve.toBool = false → (setPreferencesAction env m w).store.globalMaxSeedingMinutes = -1) ∧
      (ve.toBool = true → ∀ vt : QVariant, m.find "max_seeding_time" = some vt →
        (setPreferencesAction env m w).store.globalMaxSeedingMinutes = vt.toInt env.conv)) ∧
    (∀ v : QVariant, m.find "add_trackers_enabled" = some v →
      (setPreferencesAction env m w).store.bools BoolSetting.addTrackersEnabled = v.toBool) ∧
    (∀ v : QVariant, m.find "add_trackers" = some v →
      (setPreferencesAction env m w).store.strs StrSetting.additionalTrackers
        = v.toQString env.conv) ∧
    (∀ v : QVariant, m.find "locale" = some v →
      (setPreferencesAction env m w).store.locale = v.toQString env.conv) ∧
    (∀ v : QVariant, m.find "web_ui_password" = some v →
      (setPreferencesAction env m w).store.webUIPassword
        = env.pbkdf2Generate (v.toQString env.conv)) ∧
    (∀ v : QVariant, m.find "bypass_auth_subnet_whitelist" = some v →
      (setPreferencesAction env m w).store.webUiAuthSubnetWhitelist
        = qSplit isWhitelistDelimiter false (v.toQString env.conv)) ∧
    (∀ v : QVariant, m.find "scan_dirs" = some v →
      (setPreferencesAction env m w).store.scanDirs
        = (reconcileScanDirs env v.toMap w.store.scanDirs).1 ∧
      newRegistryCalls env m w = (reconcileScanDirs env v.toMap w.store.scanDirs).2 ∧
      ((∀ o, v ≠ QVariant.map o) → (setPreferencesAction env m w).store.scanDirs = [])) ∧
    (∀ ev : QVariant,
      (ev.isString = true → folderSpec env ev
        = (env.CUSTOM_LOCATION, env.fromNativePath (ev.toQString env.conv))) ∧
      (ev.isString = false → (folderSpec env ev).1 = ev.toInt env.conv)) ∧
    (∀ v : QVariant, (∀ o, v ≠ QVariant.map o) → v.toMap = []) ∧
    (∀ v : QVariant, (v = QVariant.invalid ∨ (∃ l, v = QVariant.list l) ∨
        (∃ o, v = QVariant.map o)) →
      v.toBool = false ∧ v.toInt env.conv = 0 ∧ v.toUInt env.conv = 0 ∧
      v.toReal env.conv = 0 ∧ v.toQString env.conv = "") ∧
    (∀ s : String, env.conv.stringToULongLong s = none →
      (QVariant.string s).toUInt env.conv = 0) ∧
    (∀ s : String, env.conv.stringToDouble s = none →
      (QVariant.string s).toReal env.conv = 0) := by
  have hstep : ∀ {α : Type} (g : World → α) (x0 : Step) (c : α),
      (∀ w x, g (applyStep env m w x) = if x = x0 then c else g w) →
      steps.filter (fun x => x = x0) = [x0] → g (setPreferencesAction env m w) = c :=
    fun g x0 c hg hx0 => proj_run_only env m g x0 (fun _ => c) hg hx0 w
  refine ⟨fun key f negate v hx h => run_bool env m w key f negate v hx h,
    fun key f v hx h => run_int env m w key f v hx h,
    fun key f v hx h => run_uint env m w key f v hx h,
    fun key f v hx h => run_str env m w key f v hx h, ?_, ?_, ?_, ?_,
    ?_, ?_, ?_, ?_, ?_, ?_, ?_, ?_, ?_, ?_, ?_, ?_, ?_, ?_, ?_, ?_, ?_,
    ?_, ?_, ?_, ?_⟩
  · intro s hs h
    rw [run_int env m w "listen_port" IntSetting.port _ steps_mem_listen_port h]
    simp [QVariant.toInt, QVariant.toLongLong, hs, toInt32]
  · intro o h
    rw [run_bool env m w "dht" BoolSetting.dhtEnabled false _ steps_mem_dht h]
    rfl
  · intro o
    refine ⟨rfl, ?_, ?_, rfl⟩
    · simp [QVariant.toInt, QVariant.toLongLong, toInt32]
    · simp [QVariant.toUInt, QVariant.toLongLong, toUInt32]
  · intro http params hc hm
    simp [setPreferencesActionOnRequest, hc, hm, QVariant.toMap]
  · intro v h
    refine hstep (fun w => w.store.proxyConfiguration.type) Step.proxyConfiguration _
      (fun w x => ?_) (by decide)
    cases x <;> simp only [applyStep, World.withStore, h] <;>
      (repeat (split <;> try rfl)) <;> simp_all
  · intro v h
    refine hstep (fun w => w.store.proxyConfiguration.ip) Step.proxyConfiguration _
      (fun w x => ?_) (by decide)
    cases x <;> simp only [applyStep, World.withStore, h] <;>
      (repeat (split <;> try rfl)) <;> simp_all
  · intro v h
    refine hstep (fun w => w.store.proxyConfiguration.port) Step.proxyConfiguration _
      (fun w x => ?_) (by decide)
    cases x <;> simp only [applyStep, World.withStore, h] <;>
      (repeat (split <;> try rfl)) <;> simp_all
  · intro v h
    refine hstep (fun w => w.store.proxyConfiguration.username) Step.proxyConfiguration _
      (fun w x => ?_) (by decide)
    cases x <;> simp only [applyStep, World.withStore, h] <;>
      (repeat (split <;> try rfl)) <;> simp_all
  · intro v h
    refine hstep (fun w => w.store.proxyConfiguration.password) Step.proxyConfiguration _
      (fun w x => ?_) (by decide)
    cases x <;> simp only [applyStep, World.withStore, h] <;>
      (repeat (split <;> try rfl)) <;> simp_all
  · intro v h
    refine hstep (fun w => w.store.bannedIPs) Step.bannedIPs _ (fun w x => ?_) (by decide)
    cases x <;> simp only [applyStep, World.withStore, h] <;>
      (repeat (split <;> try rfl)) <;> simp_all
  · intro vh vm hh hm
    refine hstep (fun w => w.store.schedulerStartTime) Step.schedulerStartTime _
      (fun w x => ?_) (by decide)
    cases x <;> simp only [applyStep, World.withStore, QVariantMap.contains,
      QVariantMap.value, hh, hm] <;> (repeat (split <;> try rfl)) <;> simp_all
  · intro vh vm hh hm
    refine hstep (fun w => w.store.schedulerEndTime) Step.schedulerEndTime _
      (fun w x => ?_) (by decide)
    cases x <;> simp only [applyStep, World.withStore, QVariantMap.contains,
      QVariantMap.value, hh, hm] <;> (repeat (split <;> try rfl)) <;> simp_all
  · intro ve he
    constructor
    · intro hb
      refine hstep (fun w => w.store.globalMaxRatio) Step.globalMaxRatio _
        (fun w x => ?_) (by decide)
      cases x <;> simp only [applyStep, World.withStore, he, hb] <;>
        (repeat (split <;> try rfl)) <;> simp_all
    · intro hb vt ht
      refine hstep (fun w => w.store.globalMaxRatio) Step.globalMaxRatio _
        (fun w x => ?_) (by decide)
      cases x <;> simp only [applyStep, World.withStore, QVariantMap.value, he, hb, ht] <;>
        (repeat (split <;> try rfl)) <;> simp_all
  · intro ve he
    constructor
    · intro hb
      refine hstep (fun w => w.store.globalMaxSeedingMinutes) Step.globalMaxSeedingMinutes _
        (fun w x => ?_) (by decide)
      cases x <;> simp only [applyStep, World.withStore, he, hb] <;>
        (repeat (split <;> try rfl)) <;> simp_all
    · intro hb vt ht
      refine hstep (fun w => w.store.globalMaxSeedingMinutes) Step.globalMaxSeedingMinutes _
        (fun w x => ?_) (by decide)
      cases x <;> simp only [applyStep, World.withStore, QVariantMap.value, he, hb, ht] <;>
        (repeat (split <;> try rfl)) <;> simp_all
  · intro v h
    exact foldl_written_once env m Step.boolTarget (fun w f => w.store.bools f)
      (bools_frame env m) steps steps_boolTarget_nodup Step.addTrackers steps_mem_addTrackers
      BoolSetting.addTrackersEnabled rfl _
      (fun w => by simp [applyStep, World.withStore, QVariantMap.value, h]) w
  · intro v h
    exact foldl_written_once env m Step.strTarget (fun w f => w.store.strs f)
      (strs_frame env m) steps steps_strTarget_nodup Step.addTrackers steps_mem_addTrackers
      StrSetting.additionalTrackers rfl _
      (fun w => by simp [applyStep, World.withStore, QVariantMap.value, h]) w
  · intro v h
    refine hstep (fun w => w.store.locale) Step.locale _ (fun w x => ?_) (by decide)
    cases x <;> simp only [applyStep, World.withStore, h] <;>
      (repeat (split <;> try rfl)) <;> simp_all
  · intro v h
    refine hstep (fun w => w.store.webUIPassword) Step.webUIPassword _
      (fun w x => ?_) (by decide)
    cases x <;> simp only [applyStep, World.withStore, h] <;>
      (repeat (split <;> try rfl)) <;> simp_all
  · intro v h
    refine hstep (fun w => w.store.webUiAuthSubnetWhitelist) Step.authSubnetWhitelist _
      (fun w x => ?_) (by decide)
    cases x <;> simp only [applyStep, World.withStore, h] <;>
      (repeat (split <;> try rfl)) <;> simp_all
  · intro v h
    have hpair : ((setPreferencesAction env m w).store.scanDirs,
        (setPreferencesAction env m w).registryCalls)
        = ((reconcileScanDirs env v.toMap w.store.scanDirs).1,
            w.registryCalls ++ (reconcileScanDirs env v.toMap w.store.scanDirs).2) :=
      proj_run_only env m (fun w => (w.store.scanDirs, w.registryCalls)) Step.scanDirs
        (fun a => ((reconcileScanDirs env v.toMap a.1).1,
          a.2 ++ (reconcileScanDirs env v.toMap a.1).2))
        (fun w x => by
          cases x <;> simp only [applyStep, World.withStore, h] <;>
            (repeat (split <;> try rfl)) <;> simp_all)
        (by decide) w
    have h1 : (setPreferencesAction env m w).store.scanDirs
        = (reconcileScanDirs env v.toMap w.store.scanDirs).1 := congrArg Prod.fst hpair
    have h2 : (setPreferencesAction env m w).registryCalls
        = w.registryCalls ++ (reconcileScanDirs env v.toMap w.store.scanDirs).2 :=
      congrArg Prod.snd hpair
    refine ⟨h1, ?_, ?_⟩
    · unfold newRegistryCalls
      rw [h2]
      simp
    · intro hv
      rw [h1]
      have hmap : v.toMap = [] := by
        cases v with
        | map o => exact absurd rfl (hv o)
        | _ => rfl
      simp [hmap, reconcileScanDirs]
  · intro ev
    constructor
    · intro hs; simp [folderSpec, hs]
    · intro hs; simp [folderSpec, hs]
  · intro v hv
    cases v with
    | map o => exact absurd rfl (hv o)
    | _ => rfl
  · intro v hv
    rcases hv with rfl | ⟨l, rfl⟩ | ⟨o, rfl⟩ <;>
      simp [QVariant.toBool, QVariant.toInt, QVariant.toUInt, QVariant.toReal,
        QVariant.toQString, QVariant.toLongLong, toInt32, toUInt32]
  · intro s hs
    simp [QVariant.toUInt, hs, toUInt32]
  · intro s hs
    simp [QVariant.toReal, hs]

/-- C14 (amended) at the patch that gives `listen_port` the text "abc": the
port 6881 becomes 0; and at the patch that gives `banned_IPs` an object: the
list is the split of the empty text. -/
theorem C14_mistyped_value_is_coerced_witness :
    (setPreferencesAction sampleEnv mistypedPatch configuredWorld).store.ints IntSetting.port
      = 0 ∧
    (setPreferencesAction sampleEnv [("banned_IPs", QVariant.map [])]
        configuredWorld).store.bannedIPs
      = qSplit (fun c => c == '\n') true ((QVariant.map []).toQString sampleEnv.conv) :=
  ⟨(C14_mistyped_value_is_coerced sampleEnv mistypedPatch configuredWorld).2.2.2.2.1 "abc"
      rfl rfl,
   (C14_mistyped_value_is_coerced sampleEnv [("banned_IPs", QVariant.map [])]
      configuredWorld).2.2.2.2.2.2.2.2.2.2.2.2.2.1 (QVariant.map []) rfl⟩

/-! ## The web UI password (C12) -/

theorem steps_keys_web_ui_password :
    ∀ x ∈ steps, x ≠ Step.webUIPassword → "web_ui_password" ∉ x.keys := by
  decide

theorem steps_mem_mail_notification_password :
    Step.str "mail_notification_password" StrSetting.mailNotificationSMTPPassword ∈ steps := by
  decide

theorem foldl_applyStep_congr (env : Env) (m1 m2 : QVariantMap) (l : List Step)
    (h : ∀ x ∈ l, ∀ w, applyStep env m1 w x = applyStep env m2 w x) (w : World) :
    l.foldl (applyStep env m1) w = l.foldl (applyStep env m2) w := by
  induction l generalizing w with
  | nil => rfl
  | cons x l ih =>
    rw [List.foldl_cons, List.foldl_cons, h x (List.mem_cons_self _ _) w,
      ih (fun y hy => h y (List.mem_cons_of_mem _ hy))]

theorem snapshot_mail_notification_password (env : Env) (st : Store) :
    (preferencesAction env st).find "mail_notification_password"
      = some (QVariant.string (st.strs StrSetting.mailNotificationSMTPPassword)) := by
  simp [preferencesAction, downloadsData, QVariantMap.find, List.lookup]

theorem snapshot_web_ui_password (env : Env) (st : Store) :
    (preferencesAction env st).find "web_ui_password" = none := by
  simp [preferencesAction, downloadsData, connectionData, speedData, bittorrentData, webUiData,
    rssData, QVariantMap.find, List.lookup]

theorem snapshot_proxy_password (env : Env) (st : Store) :
    (preferencesAction env st).find "proxy_password"
      = some (QVariant.string st.proxyConfiguration.password) := by
  simp [preferencesAction, downloadsData, connectionData, QVariantMap.find, List.lookup]

theorem snapshot_dyndns_password (env : Env) (st : Store) :
    (preferencesAction env st).find "dyndns_password"
      = some (QVariant.string (st.strs StrSetting.dynDNSPassword)) := by
  simp [preferencesAction, downloadsData, connectionData, speedData, bittorrentData, webUiData,
    QVariantMap.find, List.lookup]

theorem steps_mem_dyndns_password :
    Step.str "dyndns_password" StrSetting.dynDNSPassword ∈ steps := by
  decide

theorem proxyWrite_password (env : Env) (m : QVariantMap) (c : ProxyConfiguration)
    (v : QVariant) (h : m.find "proxy_password" = some v) :
    (proxyWrite env m c).password = v.toQString env.conv := by
  simp only [proxyWrite, h]

/-- C12, as stated, fails for the other credentials: the password supplied as
`mail_notification_password` is stored as it is and the snapshot re-emits it,
so two stores that differ only in that password have different snapshots. -/
theorem C12_counterexample :
    (preferencesAction sampleEnv
        (setPreferencesAction sampleEnv
          [("mail_notification_password", QVariant.string "hunter2")]
          sampleWorld).store).find "mail_notification_password"
      = some (QVariant.string "hunter2") ∧
    preferencesAction sampleEnv
        { sampleStore with
          strs := Function.update sampleStore.strs StrSetting.mailNotificationSMTPPassword
            "hunter2" }
      ≠ preferencesAction sampleEnv sampleStore := by
  constructor
  · rw [snapshot_mail_notification_password,
      run_str sampleEnv [("mail_notification_password", QVariant.string "hunter2")]
        sampleWorld "mail_notification_password"
        StrSetting.mailNotificationSMTPPassword (QVariant.string "hunter2")
        steps_mem_mail_notification_password rfl]
    rfl
  · intro h
    have h2 := congrArg (fun d => QVariantMap.find d "mail_notification_password") h
    simp only [snapshot_mail_notification_password] at h2
    simp [sampleStore] at h2

/-- C12 (amended): for a patch that carries `web_ui_password = p`, the run
stores `hash(p)` as the web UI password, and the plaintext enters the result
only through `hash(p)` (a patch that differs only in that password, with the
same digest, gives the same world); the snapshot has no `web_ui_password`
entry and does not depend on the stored web UI password. The passwords
supplied as `mail_notification_password`, `proxy_password` and
`dyndns_password` are stored as supplied and the snapshot re-emits them. -/
theorem C12_web_ui_password_digest (env : Env) (m : QVariantMap) (w : World) (p : String)
    (h : m.find "web_ui_password" = some (QVariant.string p)) :
    (setPreferencesAction env m w).store.webUIPassword = env.pbkdf2Generate p ∧
    (∀ (m2 : QVariantMap) (p2 : String),
      (∀ k, k ≠ "web_ui_password" → m2.find k = m.find k) →
      m2.find "web_ui_password" = some (QVariant.string p2) →
      env.pbkdf2Generate p2 = env.pbkdf2Generate p →
      setPreferencesAction env m2 w = setPreferencesAction env m w) ∧
    (preferencesAction env (setPreferencesAction env m w).store).find "web_ui_password"
      = none ∧
    (∀ (st : Store) (digest : String),
      preferencesAction env { st with webUIPassword := digest } = preferencesAction env st) ∧
    (∀ q : String, m.find "mail_notification_password" = some (QVariant.string q) →
      (preferencesAction env (setPreferencesAction env m w).store).find
        "mail_notification_password" = some (QVariant.string q)) ∧
    (∀ q : String, m.find "proxy_password" = some (QVariant.string q) →
      (preferencesAction env (setPreferencesAction env m w).store).find "proxy_password"
        = some (QVariant.string q)) ∧
    (∀ q : String, m.find "dyndns_password" = some (QVariant.string q) →
      (preferencesAction env (setPreferencesAction env m w).store).find "dyndns_password"
        = some (QVariant.string q)) := by
  refine ⟨?_, ?_, snapshot_web_ui_password env _, fun st digest => rfl, ?_, ?_, ?_⟩
  · rw [webUIPassword_run]
    simp [passwordWrite, h, QVariant.toQString]
  · intro m2 p2 hk h2 hd
    unfold setPreferencesAction
    apply foldl_applyStep_congr
    intro x hx w2
    by_cases hxp : x = Step.webUIPassword
    · subst hxp
      simp [applyStep, h, h2, QVariant.toQString, hd]
    · exact applyStep_congr env m2 m w2 x
        (fun k hkx => hk k (fun hkp => steps_keys_web_ui_password x hx hxp (hkp ▸ hkx)))
  · intro q hq
    rw [snapshot_mail_notification_password, run_str env m w "mail_notification_password"
      StrSetting.mailNotificationSMTPPassword _ steps_mem_mail_notification_password hq]
    rfl
  · intro q hq
    rw [snapshot_proxy_password, proxyConfiguration_run, proxyWrite_password env m _ _ hq]
    rfl
  · intro q hq
    rw [snapshot_dyndns_password, run_str env m w "dyndns_password"
      StrSetting.dynDNSPassword _ steps_mem_dyndns_password hq]
    rfl

/-- C12 (amended) at the patch `web_ui_password = "hunter2"`. -/
theorem C12_web_ui_password_digest_witness :
    (setPreferencesAction sampleEnv [("web_ui_password", QVariant.string "hunter2")]
        sampleWorld).store.webUIPassword = sampleEnv.pbkdf2Generate "hunter2" ∧
    (preferencesAction sampleEnv
        (setPreferencesAction sampleEnv [("web_ui_password", QVariant.string "hunter2")]
          sampleWorld).store).find "web_ui_password" = none :=
  ⟨(C12_web_ui_password_digest sampleEnv [("web_ui_password", QVariant.string "hunter2")]
      sampleWorld "hunter2" rfl).1,
   (C12_web_ui_password_digest sampleEnv [("web_ui_password", QVariant.string "hunter2")]
      sampleWorld "hunter2" rfl).2.2.1⟩

end AppController
